import Mathlib

/-!
Shallow embedding of the quantization parameter engine and graph
transformation engine of the ai-edge-quantizer repository, together with
proofs about it.

The embedding covers:
* the transform-sequence table (`get_tensor_transformations`);
* the recipe manager (`add_quantization_config`,
  `get_quantization_configs`, `get_quantization_recipe`,
  `load_quantization_recipe`);
* tensor materialization (`materialize_standard_op` and friends,
  `materialize_fc_conv`);
* the quantize-tensor graph transformation (`quantize_tensor`);
* tensor quantization-metadata comparison (`has_same_quantization`).

Machine floats of the source are modelled by rationals; numpy arrays by
their shape together with the row-major flattened list of entries.
-/

namespace AEQ

/-- TFLite operation names used by the quantizer (`qtyping.TFLOperationName`). -/
inductive TFLOpName where
  | ALL
  | FULLY_CONNECTED
  | CONV_2D
  | BATCH_MATMUL
  | EMBEDDING_LOOKUP
  | DEPTHWISE_CONV_2D
  | AVERAGE_POOL_2D
  | RESHAPE
  | SOFTMAX
  | TANH
  | TRANSPOSE
  | GELU
  | ADD
  | SUB
  | MUL
  | TRANSPOSE_CONV
  deriving DecidableEq, Repr

/-- Op execution modes (`qtyping.OpExecutionMode`): weight-only,
dynamic-range (DRQ) and static-range (SRQ) quantization. -/
inductive OpExecutionMode where
  | WEIGHT_ONLY
  | DRQ
  | SRQ
  deriving DecidableEq, Repr

/-- Graph-edit kinds (`qtyping.QuantTransformation`). -/
inductive QuantTransformation where
  | NO_QUANTIZE
  | ADD_QUANTIZE
  | ADD_DEQUANTIZE
  | QUANTIZE_TENSOR
  deriving DecidableEq, Repr

/-- Tensor data kinds (`qtyping.TensorDataType`). -/
inductive TensorDataType where
  | INT
  | FLOAT
  deriving DecidableEq, Repr

/-- Per-tensor quantization configuration
(`qtyping.TensorQuantizationConfig`). -/
structure TensorQuantizationConfig where
  num_bits : Nat
  symmetric : Bool
  channel_wise : Bool
  dtype : TensorDataType
  deriving DecidableEq, Repr

/-- Default `TensorQuantizationConfig()` (int8, symmetric, per-tensor). -/
def defaultTensorQuantizationConfig : TensorQuantizationConfig :=
  { num_bits := 8, symmetric := true, channel_wise := false,
    dtype := TensorDataType.INT }

/-- Per-op quantization configuration (`qtyping.OpQuantizationConfig`). -/
structure OpQuantizationConfig where
  activation_tensor_config : Option TensorQuantizationConfig
  weight_tensor_config : TensorQuantizationConfig
  execution_mode : OpExecutionMode
  deriving DecidableEq, Repr

/-- Default `OpQuantizationConfig()`. -/
def defaultOpQuantizationConfig : OpQuantizationConfig :=
  { activation_tensor_config := none,
    weight_tensor_config := defaultTensorQuantizationConfig,
    execution_mode := OpExecutionMode.WEIGHT_ONLY }

/-- `min_max_quantize_utils.get_tensor_transformations`: derives the list of
graph edits for one tensor from the op's execution mode, whether the tensor
is inbound, and whether it is constant. -/
def get_tensor_transformations (op_quant_config : OpQuantizationConfig)
    (is_inbounding_tensor : Bool) (is_constant : Bool) :
    List QuantTransformation :=
  if op_quant_config.execution_mode = OpExecutionMode.SRQ then
    if is_inbounding_tensor then
      if is_constant then [QuantTransformation.QUANTIZE_TENSOR]
      else [QuantTransformation.ADD_QUANTIZE]
    else [QuantTransformation.ADD_DEQUANTIZE]
  else if op_quant_config.execution_mode = OpExecutionMode.DRQ then
    if is_inbounding_tensor ∧ is_constant then
      [QuantTransformation.QUANTIZE_TENSOR]
    else [QuantTransformation.NO_QUANTIZE]
  else if op_quant_config.execution_mode = OpExecutionMode.WEIGHT_ONLY then
    if is_inbounding_tensor ∧ is_constant then
      [QuantTransformation.ADD_DEQUANTIZE]
    else [QuantTransformation.NO_QUANTIZE]
  else []

/-- The mode table of the spec, written directly from its words: rows are
execution modes, columns are (inbound constant, inbound activation,
outbound). -/
def specTransformTable (mode : OpExecutionMode) (is_inbounding_tensor : Bool)
    (is_constant : Bool) : List QuantTransformation :=
  match mode, is_inbounding_tensor, is_constant with
  | OpExecutionMode.SRQ, true, true => [QuantTransformation.QUANTIZE_TENSOR]
  | OpExecutionMode.SRQ, true, false => [QuantTransformation.ADD_QUANTIZE]
  | OpExecutionMode.SRQ, false, _ => [QuantTransformation.ADD_DEQUANTIZE]
  | OpExecutionMode.DRQ, true, true => [QuantTransformation.QUANTIZE_TENSOR]
  | OpExecutionMode.DRQ, true, false => [QuantTransformation.NO_QUANTIZE]
  | OpExecutionMode.DRQ, false, _ => [QuantTransformation.NO_QUANTIZE]
  | OpExecutionMode.WEIGHT_ONLY, true, true =>
      [QuantTransformation.ADD_DEQUANTIZE]
  | OpExecutionMode.WEIGHT_ONLY, true, false =>
      [QuantTransformation.NO_QUANTIZE]
  | OpExecutionMode.WEIGHT_ONLY, false, _ =>
      [QuantTransformation.NO_QUANTIZE]

/-! ## Recipe manager (`recipe_manager.py`)

The manager keeps an insertion-ordered dictionary from scope regex to the
list of `OpQuantizationRecipe` under that scope.  Regex matching
(`re.search`) and the algorithm manager's operation registry are external
collaborators; they enter the embedding as parameters `reSearch` and
`isOpRegistered`. -/

/-- Sentinel algorithm key `algorithm_manager.NO_QUANT`. -/
def NO_QUANT : String := "no_quant"

/-- Default algorithm key `algorithm_manager.PTQ`. -/
def PTQ : String := "ptq"

/-- One rule of the recipe (`recipe_manager.OpQuantizationRecipe`). -/
structure OpQuantizationRecipe where
  regex : String
  operation : TFLOpName
  algorithm_key : String
  op_config : OpQuantizationConfig
  override_algorithm : Bool
  deriving DecidableEq, Repr

/-- The state of a `RecipeManager`: its `_scope_configs` ordered dictionary,
as an insertion-ordered association list with unique keys. -/
abbrev RecipeManagerState : Type := List (String × List OpQuantizationRecipe)

/-- Lookup in an insertion-ordered dictionary (first binding wins). -/
def odFind {β : Type} (m : List (String × β)) (k : String) : Option β :=
  match m with
  | [] => none
  | (k', v) :: rest => if k' = k then some v else odFind rest k

/-- Update in an insertion-ordered dictionary: an existing key keeps its
position, a new key is appended at the end (Python `dict` semantics). -/
def odSet {β : Type} (m : List (String × β)) (k : String) (v : β) :
    List (String × β) :=
  match m with
  | [] => [(k, v)]
  | (k', v') :: rest =>
      if k' = k then (k, v) :: rest else (k', v') :: odSet rest k v

/-- The rule-list rewrite loop of `add_quantization_config` for a scope that
already exists: every rule with the same operation is replaced by the new
rule (`is_new_op = False`); if none matched, the new rule is appended. -/
def updateConfigs (configs : List OpQuantizationRecipe)
    (config : OpQuantizationRecipe) : List OpQuantizationRecipe :=
  let replaced := configs.map
    (fun e => if e.operation = config.operation then config else e)
  if configs.any (fun e => e.operation = config.operation) then replaced
  else replaced ++ [config]

/-- `RecipeManager.add_quantization_config`.  `isOpRegistered` stands for
`algorithm_manager.is_op_registered`; a failed check raises `ValueError`,
modelled by `Except.error`. -/
def add_quantization_config (isOpRegistered : String → TFLOpName → Bool)
    (st : RecipeManagerState) (regex : String) (operation_name : TFLOpName)
    (op_config : Option OpQuantizationConfig) (algorithm_key : String)
    (override_algorithm : Bool) : Except String RecipeManagerState :=
  let opCfg := op_config.getD defaultOpQuantizationConfig
  let config : OpQuantizationRecipe :=
    { regex := regex, operation := operation_name,
      algorithm_key := algorithm_key, op_config := opCfg,
      override_algorithm := override_algorithm }
  if config.operation = TFLOpName.ALL then
    Except.ok (odSet st regex [config])
  else if algorithm_key ≠ NO_QUANT ∧
      ¬ isOpRegistered algorithm_key operation_name then
    Except.error "Unsupported operation for algorithm."
  else
    match odFind st regex with
    | none => Except.ok (odSet st regex [config])
    | some configs => Except.ok (odSet st regex (updateConfigs configs config))

/-- The per-rule accumulator step of `get_quantization_configs`: a rule whose
operation is neither ALL nor the target is skipped; a rule with a different
algorithm key is adopted only when its override flag is set (adopting both
key and config); a rule with the same key always overwrites the config. -/
def resolveRuleStep (target_op_name : TFLOpName)
    (acc : String × OpQuantizationConfig) (recipe : OpQuantizationRecipe) :
    String × OpQuantizationConfig :=
  if recipe.operation ≠ TFLOpName.ALL ∧ recipe.operation ≠ target_op_name then
    acc
  else if acc.1 ≠ recipe.algorithm_key then
    if recipe.override_algorithm then (recipe.algorithm_key, recipe.op_config)
    else acc
  else (acc.1, recipe.op_config)

/-- `RecipeManager.get_quantization_configs`.  `reSearch regex name` stands
for `re.search(regex, name)` (substring search by the external regex
engine). -/
def get_quantization_configs (reSearch : String → String → Bool)
    (st : RecipeManagerState) (target_op_name : TFLOpName)
    (scope_name : String) : String × OpQuantizationConfig :=
  st.foldl
    (fun acc scope =>
      if reSearch scope.1 scope_name then
        scope.2.foldl (resolveRuleStep target_op_name) acc
      else acc)
    (NO_QUANT, defaultOpQuantizationConfig)

/-- `RecipeManager.get_quantization_recipe`: serializes, scope by scope and
rule by rule in order, every rule of the manager (the rule's own `regex`
field is what is written out). -/
def get_quantization_recipe (st : RecipeManagerState) :
    List OpQuantizationRecipe :=
  st.flatMap (fun scope => scope.2)

/-- `RecipeManager.load_quantization_recipe`: resets the manager and replays
every serialized rule through `add_quantization_config`. -/
def load_quantization_recipe (isOpRegistered : String → TFLOpName → Bool)
    (recipe : List OpQuantizationRecipe) : Except String RecipeManagerState :=
  recipe.foldlM
    (fun st r =>
      add_quantization_config isOpRegistered st r.regex r.operation
        (some r.op_config) r.algorithm_key r.override_algorithm)
    ([] : RecipeManagerState)

/-- States of the recipe manager reachable from a fresh manager by
successful `add_quantization_config` calls. -/
inductive ReachableRecipe (isOpRegistered : String → TFLOpName → Bool) :
    RecipeManagerState → Prop where
  | empty : ReachableRecipe isOpRegistered []
  | add {st st' : RecipeManagerState} {regex : String} {op : TFLOpName}
      {cfg : Option OpQuantizationConfig} {alg : String} {ov : Bool} :
      ReachableRecipe isOpRegistered st →
      add_quantization_config isOpRegistered st regex op cfg alg ov =
        Except.ok st' →
      ReachableRecipe isOpRegistered st'

/-- Applicable rules per the spec's words: scopes are scanned in insertion
order, a scope contributes when its regex matches the queried scope name,
and within it the rules whose target operation is ALL or the queried
operation, in order. -/
def applicableRules (reSearch : String → String → Bool)
    (st : RecipeManagerState) (target_op_name : TFLOpName)
    (scope_name : String) : List OpQuantizationRecipe :=
  (st.filter (fun scope => reSearch scope.1 scope_name)).flatMap
    (fun scope => scope.2.filter
      (fun r => r.operation = TFLOpName.ALL ∨ r.operation = target_op_name))

/-- One resolution step per the spec's words: if the rule's algorithm
differs from the running result's algorithm, the rule is adopted only when
its override flag is true and is otherwise ignored entirely; when the
algorithms are equal the rule's config always replaces the running
config. -/
def specResolveStep (acc : String × OpQuantizationConfig)
    (r : OpQuantizationRecipe) : String × OpQuantizationConfig :=
  if r.algorithm_key ≠ acc.1 then
    if r.override_algorithm then (r.algorithm_key, r.op_config) else acc
  else (acc.1, r.op_config)

/-- Resolution per the spec's words: fold the resolution step over the
applicable rules, starting from the no-quantization sentinel. -/
def get_quantization_configs_spec (reSearch : String → String → Bool)
    (st : RecipeManagerState) (target_op_name : TFLOpName)
    (scope_name : String) : String × OpQuantizationConfig :=
  (applicableRules reSearch st target_op_name scope_name).foldl
    specResolveStep (NO_QUANT, defaultOpQuantizationConfig)

theorem foldl_flatMap_eq {α β γ : Type} (f : γ → β → γ) (g : α → List β) :
    ∀ (l : List α) (a : γ),
      (l.flatMap g).foldl f a = l.foldl (fun a x => (g x).foldl f a) a := by
  intro l
  induction l with
  | nil => intro a; rfl
  | cons x xs ih =>
      intro a
      simp only [List.flatMap_cons, List.foldl_append, List.foldl_cons, ih]

theorem resolveRuleStep_applicable (target : TFLOpName)
    (acc : String × OpQuantizationConfig) (r : OpQuantizationRecipe)
    (h : r.operation = TFLOpName.ALL ∨ r.operation = target) :
    resolveRuleStep target acc r = specResolveStep acc r := by
  unfold resolveRuleStep specResolveStep
  rw [if_neg (by tauto)]
  by_cases h1 : acc.1 = r.algorithm_key
  · rw [if_neg (by simp [h1]), if_neg (by simp [h1])]
  · have h2 : r.algorithm_key ≠ acc.1 := fun e => h1 e.symm
    rw [if_pos h1, if_pos h2]

theorem resolveRuleStep_skip (target : TFLOpName)
    (acc : String × OpQuantizationConfig) (r : OpQuantizationRecipe)
    (h : ¬ (r.operation = TFLOpName.ALL ∨ r.operation = target)) :
    resolveRuleStep target acc r = acc := by
  unfold resolveRuleStep
  rw [if_pos (by tauto)]

theorem foldl_resolveRuleStep_eq_filtered (target : TFLOpName)
    (rules : List OpQuantizationRecipe) :
    ∀ acc, rules.foldl (resolveRuleStep target) acc =
      (rules.filter (fun r =>
        r.operation = TFLOpName.ALL ∨ r.operation = target)).foldl
        specResolveStep acc := by
  induction rules with
  | nil => intro acc; rfl
  | cons r rest ih =>
      intro acc
      by_cases h : r.operation = TFLOpName.ALL ∨ r.operation = target
      · rw [List.foldl_cons, resolveRuleStep_applicable target acc r h,
          List.filter_cons, if_pos (by simpa using h), List.foldl_cons]
        exact ih _
      · rw [List.foldl_cons, resolveRuleStep_skip target acc r h,
          List.filter_cons, if_neg (by simpa using h)]
        exact ih _

theorem get_quantization_configs_eq_specAux (reSearch : String → String → Bool)
    (target : TFLOpName) (scope_name : String) :
    ∀ (st : RecipeManagerState) (acc : String × OpQuantizationConfig),
      st.foldl
        (fun acc scope =>
          if reSearch scope.1 scope_name then
            scope.2.foldl (resolveRuleStep target) acc
          else acc) acc =
      (applicableRules reSearch st target scope_name).foldl
        specResolveStep acc := by
  intro st
  induction st with
  | nil => intro acc; rfl
  | cons scope rest ih =>
      intro acc
      by_cases h : reSearch scope.1 scope_name = true
      · have happ : applicableRules reSearch (scope :: rest) target scope_name =
            scope.2.filter (fun r =>
              r.operation = TFLOpName.ALL ∨ r.operation = target) ++
              applicableRules reSearch rest target scope_name := by
          unfold applicableRules
          rw [List.filter_cons, if_pos (by simpa using h), List.flatMap_cons]
        simp only [List.foldl_cons]
        rw [if_pos h, happ, List.foldl_append,
          ← foldl_resolveRuleStep_eq_filtered]
        exact ih _
      · have happ : applicableRules reSearch (scope :: rest) target scope_name =
            applicableRules reSearch rest target scope_name := by
          unfold applicableRules
          rw [List.filter_cons, if_neg (by simpa using h)]
        simp only [List.foldl_cons]
        rw [if_neg h, happ]
        exact ih _

/-- C2: resolution scans scopes in insertion order, within each matching
scope scans applicable rules (operation ALL or the target) in order, skips
a rule with a different algorithm entirely unless its override flag is set
(keeping both the prior algorithm and the prior config), and always adopts
the config of a rule with an equal algorithm; in particular, a scope
holding two rules for the same operation with different algorithms,
override true on the first and false on the second, resolves to the first
rule's algorithm and config. -/
theorem get_quantization_configs_correct :
    (∀ (reSearch : String → String → Bool) (st : RecipeManagerState)
        (target : TFLOpName) (scope_name : String),
      get_quantization_configs reSearch st target scope_name =
        get_quantization_configs_spec reSearch st target scope_name) ∧
    (∀ (reSearch : String → String → Bool) (regex scope_name : String)
        (target : TFLOpName) (r1 r2 : OpQuantizationRecipe),
      reSearch regex scope_name = true →
      r1.operation = target → r2.operation = target →
      r1.override_algorithm = true → r2.override_algorithm = false →
      r2.algorithm_key ≠ r1.algorithm_key →
      get_quantization_configs reSearch [(regex, [r1, r2])] target
          scope_name = (r1.algorithm_key, r1.op_config)) := by
  constructor
  · intro reSearch st target scope_name
    exact get_quantization_configs_eq_specAux reSearch target scope_name st _
  · intro reSearch regex scope_name target r1 r2 hre h1 h2 hov1 hov2 halg
    have hgoal : resolveRuleStep target
        (resolveRuleStep target (NO_QUANT, defaultOpQuantizationConfig) r1)
        r2 = (r1.algorithm_key, r1.op_config) := by
      by_cases hq : r1.algorithm_key = NO_QUANT
      · have hstep1 : resolveRuleStep target
            (NO_QUANT, defaultOpQuantizationConfig) r1 =
            (NO_QUANT, r1.op_config) := by
          unfold resolveRuleStep
          rw [if_neg (by simp [h1]), if_neg (by simp [hq])]
        have h3 : ¬ ((NO_QUANT : String) = r2.algorithm_key) := by
          intro e; exact halg (by rw [← e, hq])
        rw [hstep1]
        unfold resolveRuleStep
        rw [if_neg (by simp [h2]), if_pos (by simpa using h3),
          if_neg (by simp [hov2]), hq]
      · have h4 : ¬ ((NO_QUANT : String) = r1.algorithm_key) :=
          fun e => hq e.symm
        have hstep1 : resolveRuleStep target
            (NO_QUANT, defaultOpQuantizationConfig) r1 =
            (r1.algorithm_key, r1.op_config) := by
          unfold resolveRuleStep
          rw [if_neg (by simp [h1]), if_pos (by simpa using h4),
            if_pos (by simp [hov1])]
        have h5 : ¬ (r1.algorithm_key = r2.algorithm_key) :=
          fun e => halg e.symm
        rw [hstep1]
        unfold resolveRuleStep
        rw [if_neg (by simp [h2]), if_pos (by simpa using h5),
          if_neg (by simp [hov2])]
    unfold get_quantization_configs
    rw [List.foldl_cons, List.foldl_nil]
    have harg :
        (if reSearch regex scope_name then
          [r1, r2].foldl (resolveRuleStep target)
            (NO_QUANT, defaultOpQuantizationConfig)
        else (NO_QUANT, defaultOpQuantizationConfig)) =
        [r1, r2].foldl (resolveRuleStep target)
          (NO_QUANT, defaultOpQuantizationConfig) := by
      rw [if_pos hre]
    rw [harg, List.foldl_cons, List.foldl_cons, List.foldl_nil, hgoal]

/-- C2 witness: the theorem applied at a concrete two-rule scope. -/
theorem get_quantization_configs_correct_witness :
    get_quantization_configs (fun r s => decide (r = s))
      [("scope", [⟨"scope", TFLOpName.FULLY_CONNECTED, "alg_a",
          defaultOpQuantizationConfig, true⟩,
        ⟨"scope", TFLOpName.FULLY_CONNECTED, "alg_b",
          { defaultOpQuantizationConfig with
              execution_mode := OpExecutionMode.SRQ }, false⟩])]
      TFLOpName.FULLY_CONNECTED "scope" =
      ("alg_a", defaultOpQuantizationConfig) :=
  get_quantization_configs_correct.2 (fun r s => decide (r = s)) "scope"
    "scope" TFLOpName.FULLY_CONNECTED _ _ (by decide) rfl rfl rfl rfl
    (by decide)

/-- C1: for every operator quantization config and every tensor, the derived
transformation sequence is exactly the spec's mode table: under SRQ an
inbound constant tensor gets [QUANTIZE_TENSOR], an inbound non-constant
tensor gets [ADD_QUANTIZE] and every outbound tensor gets [ADD_DEQUANTIZE];
under DRQ an inbound constant tensor gets [QUANTIZE_TENSOR] and every other
tensor gets [NO_QUANTIZE]; under WEIGHT_ONLY an inbound constant tensor
gets [ADD_DEQUANTIZE] and every other tensor gets [NO_QUANTIZE]. -/
theorem get_tensor_transformations_eq_spec_table
    (cfg : OpQuantizationConfig) (inbound const : Bool) :
    get_tensor_transformations cfg inbound const =
      specTransformTable cfg.execution_mode inbound const := by
  cases h : cfg.execution_mode <;> cases inbound <;> cases const <;>
    simp [get_tensor_transformations, specTransformTable, h]

/-! ## Ordered-dictionary lemmas -/

theorem odFind_odSet_self {β : Type} (m : List (String × β)) (k : String)
    (v : β) : odFind (odSet m k v) k = some v := by
  induction m with
  | nil => simp [odFind, odSet]
  | cons p rest ih =>
      by_cases h : p.1 = k
      · simp [odFind, odSet, h]
      · simp [odFind, odSet, h, ih]

theorem odFind_odSet_other {β : Type} (m : List (String × β))
    (k k' : String) (v : β) (h : k' ≠ k) :
    odFind (odSet m k v) k' = odFind m k' := by
  have hkk : ¬ (k = k') := fun e => h e.symm
  induction m with
  | nil => simp [odFind, odSet, hkk]
  | cons p rest ih =>
      obtain ⟨pk, pv⟩ := p
      by_cases hp : pk = k
      · have hpk' : ¬ (pk = k') := by rw [hp]; exact hkk
        simp [odFind, odSet, hp, hpk', hkk]
      · by_cases hp' : pk = k'
        · simp [odFind, odSet, hp, hp', h]
        · simp [odFind, odSet, hp, hp', ih]

theorem odSet_of_find_none {β : Type} (m : List (String × β)) (k : String)
    (v : β) (h : odFind m k = none) : odSet m k v = m ++ [(k, v)] := by
  induction m with
  | nil => simp [odSet]
  | cons p rest ih =>
      by_cases hp : p.1 = k
      · simp [odFind, hp] at h
      · simp only [odFind, hp, if_neg] at h
        simp [odSet, hp, ih h]

theorem odSet_self_of_find {β : Type} (m : List (String × β)) (k : String)
    (v : β) (h : odFind m k = some v) : odSet m k v = m := by
  induction m with
  | nil => simp [odFind] at h
  | cons p rest ih =>
      obtain ⟨pk, pv⟩ := p
      simp only [odFind] at h
      by_cases hp : pk = k
      · rw [if_pos hp] at h
        have hv : pv = v := by injection h
        subst hv; subst hp
        simp [odSet]
      · rw [if_neg hp] at h
        simp [odSet, hp, ih h]

theorem odSet_odSet {β : Type} (m : List (String × β)) (k : String)
    (v w : β) : odSet (odSet m k v) k w = odSet m k w := by
  induction m with
  | nil => simp [odSet]
  | cons p rest ih =>
      by_cases hp : p.1 = k
      · simp [odSet, hp]
      · simp [odSet, hp, ih]

theorem odFind_append_none {β : Type} (m m' : List (String × β))
    (k : String) (h : odFind m k = none) :
    odFind (m ++ m') k = odFind m' k := by
  induction m with
  | nil => simp
  | cons p rest ih =>
      by_cases hp : p.1 = k
      · simp [odFind, hp] at h
      · simp only [odFind, hp, if_neg] at h
        simpa [odFind, hp] using ih h

theorem mem_odSet {β : Type} (m : List (String × β)) (k : String) (v : β)
    (p : String × β) (h : p ∈ odSet m k v) : p = (k, v) ∨ p ∈ m := by
  induction m with
  | nil => simpa [odSet] using h
  | cons q rest ih =>
      by_cases hq : q.1 = k
      · simp only [odSet, hq, if_pos] at h
        rcases List.mem_cons.mp h with h1 | h1
        · exact Or.inl h1
        · exact Or.inr (List.mem_cons_of_mem _ h1)
      · simp only [odSet, hq, if_neg] at h
        rcases List.mem_cons.mp h with h1 | h1
        · exact Or.inr (h1 ▸ List.mem_cons_self _ _)
        · rcases ih h1 with h2 | h2
          · exact Or.inl h2
          · exact Or.inr (List.mem_cons_of_mem _ h2)

theorem odFind_mem {β : Type} (m : List (String × β)) (k : String) (v : β)
    (h : odFind m k = some v) : (k, v) ∈ m := by
  induction m with
  | nil => simp [odFind] at h
  | cons p rest ih =>
      obtain ⟨pk, pv⟩ := p
      simp only [odFind] at h
      by_cases hp : pk = k
      · rw [if_pos hp] at h
        have hv : pv = v := by injection h
        subst hv; subst hp
        exact List.mem_cons_self _ _
      · rw [if_neg hp] at h
        exact List.mem_cons_of_mem _ (ih h)

theorem odSet_keys_of_find_some {β : Type} (m : List (String × β))
    (k : String) (v v' : β) (h : odFind m k = some v') :
    (odSet m k v).map Prod.fst = m.map Prod.fst := by
  induction m with
  | nil => simp [odFind] at h
  | cons p rest ih =>
      by_cases hp : p.1 = k
      · simp [odSet, hp]
      · simp only [odFind, hp, if_neg] at h
        simp [odSet, hp, ih h]

theorem odSet_keys_of_find_none {β : Type} (m : List (String × β))
    (k : String) (v : β) (h : odFind m k = none) :
    (odSet m k v).map Prod.fst = m.map Prod.fst ++ [k] := by
  rw [odSet_of_find_none m k v h]
  simp

/-! ## Rule-list lemmas -/

/-- The operations of a rule list are pairwise distinct. -/
def DistinctOps (rs : List OpQuantizationRecipe) : Prop :=
  (rs.map (fun r => r.operation)).Nodup

theorem replaceSameOp_eq_self (l : List OpQuantizationRecipe)
    (c : OpQuantizationRecipe) (h : ∀ e ∈ l, e.operation ≠ c.operation) :
    l.map (fun e => if e.operation = c.operation then c else e) = l := by
  induction l with
  | nil => rfl
  | cons e rest ih =>
      rw [List.map_cons, if_neg (h e (List.mem_cons_self _ _)),
        ih (fun x hx => h x (List.mem_cons_of_mem _ hx))]

theorem updateConfigs_of_not_mem (l : List OpQuantizationRecipe)
    (c : OpQuantizationRecipe) (h : ∀ e ∈ l, e.operation ≠ c.operation) :
    updateConfigs l c = l ++ [c] := by
  unfold updateConfigs
  rw [if_neg (by simp only [List.any_eq_true, decide_eq_true_eq]; push_neg; exact h),
    replaceSameOp_eq_self l c h]

theorem replaceSameOp_eq_set (c : OpQuantizationRecipe) :
    ∀ (l : List OpQuantizationRecipe) (i : Nat) (r : OpQuantizationRecipe),
      DistinctOps l → l[i]? = some r → r.operation = c.operation →
      l.map (fun e => if e.operation = c.operation then c else e) =
        l.set i c := by
  intro l
  induction l with
  | nil => intro i r _ hi; simp at hi
  | cons e rest ih =>
      intro i r hd hi hop
      have hd' := List.nodup_cons.mp hd
      cases i with
      | zero =>
          have he : e = r := by simpa using hi
          subst he
          rw [List.map_cons, if_pos hop, List.set_cons_zero]
          congr 1
          apply replaceSameOp_eq_self
          intro x hx hxc
          apply hd'.1
          simp only [List.mem_map]
          exact ⟨x, hx, by rw [hxc, ← hop]⟩
      | succ j =>
          have hi' : rest[j]? = some r := by simpa using hi
          have hrmem : r ∈ rest := List.getElem?_mem hi'
          have he : ¬ (e.operation = c.operation) := by
            intro hec
            apply hd'.1
            simp only [List.mem_map]
            exact ⟨r, hrmem, by rw [hop, ← hec]⟩
          rw [List.map_cons, if_neg he, List.set_cons_succ]
          congr 1
          exact ih j r hd'.2 hi' hop

theorem updateConfigs_set (l : List OpQuantizationRecipe)
    (c : OpQuantizationRecipe) (i : Nat) (r : OpQuantizationRecipe)
    (hd : DistinctOps l) (hi : l[i]? = some r)
    (hop : r.operation = c.operation) :
    updateConfigs l c = l.set i c := by
  unfold updateConfigs
  have hrmem : r ∈ l := List.getElem?_mem hi
  rw [if_pos (by
    simp only [List.any_eq_true, decide_eq_true_eq]
    exact ⟨r, hrmem, hop⟩)]
  exact replaceSameOp_eq_set c l i r hd hi hop

theorem mapOps_replaceSameOp (c : OpQuantizationRecipe) :
    ∀ (l : List OpQuantizationRecipe),
      (l.map (fun e => if e.operation = c.operation then c else e)).map
        (fun r => r.operation) = l.map (fun r => r.operation) := by
  intro l
  induction l with
  | nil => rfl
  | cons e rest ih =>
      rw [List.map_cons, List.map_cons, List.map_cons]
      by_cases h : e.operation = c.operation
      · rw [if_pos h, ih, h]
      · rw [if_neg h, ih]

theorem distinctOps_updateConfigs (l : List OpQuantizationRecipe)
    (c : OpQuantizationRecipe) (hd : DistinctOps l) :
    DistinctOps (updateConfigs l c) := by
  unfold updateConfigs
  by_cases h : l.any (fun e => e.operation = c.operation) = true
  · rw [if_pos h]
    unfold DistinctOps
    rw [mapOps_replaceSameOp]
    exact hd
  · rw [if_neg h]
    have hnm : ∀ e ∈ l, e.operation ≠ c.operation := by
      simp only [List.any_eq_true, decide_eq_true_eq] at h
      push_neg at h
      exact h
    rw [replaceSameOp_eq_self l c hnm]
    unfold DistinctOps
    rw [List.map_append]
    simp only [List.map_cons, List.map_nil]
    rw [List.nodup_append]
    refine ⟨hd, List.nodup_singleton _, ?_⟩
    intro x hx
    simp only [List.mem_singleton]
    rcases List.mem_map.mp hx with ⟨e, he, hxe⟩
    intro hxc
    exact hnm e he (by rw [← hxe] at hxc; exact hxc)

theorem mem_updateConfigs (l : List OpQuantizationRecipe)
    (c x : OpQuantizationRecipe) (h : x ∈ updateConfigs l c) :
    x ∈ l ∨ x = c := by
  unfold updateConfigs at h
  have hmap : ∀ y, y ∈ l.map
      (fun e => if e.operation = c.operation then c else e) →
      y ∈ l ∨ y = c := by
    intro y hy
    rcases List.mem_map.mp hy with ⟨e, he, hye⟩
    by_cases hec : e.operation = c.operation
    · rw [if_pos hec] at hye; exact Or.inr hye.symm
    · rw [if_neg hec] at hye; exact Or.inl (hye ▸ he)
  by_cases hc : l.any (fun e => e.operation = c.operation) = true
  · rw [if_pos hc] at h
    exact hmap x h
  · rw [if_neg hc] at h
    rcases List.mem_append.mp h with h1 | h1
    · exact hmap x h1
    · exact Or.inr (List.mem_singleton.mp h1)

theorem updateConfigs_ne_nil (l : List OpQuantizationRecipe)
    (c : OpQuantizationRecipe) (h : l ≠ []) : updateConfigs l c ≠ [] := by
  unfold updateConfigs
  by_cases hc : l.any (fun e => e.operation = c.operation) = true
  · rw [if_pos hc]
    simpa using h
  · rw [if_neg hc]
    simp

theorem tail_updateConfigs_mem (t : List OpQuantizationRecipe)
    (e c x : OpQuantizationRecipe) (h : x ∈ (updateConfigs (e :: t) c).tail) :
    x ∈ t ∨ x = c := by
  unfold updateConfigs at h
  by_cases hc : (e :: t).any (fun r => r.operation = c.operation) = true
  · rw [if_pos hc] at h
    rw [List.map_cons] at h
    simp only [List.tail_cons] at h
    rcases List.mem_map.mp h with ⟨y, hy, hxy⟩
    by_cases hyc : y.operation = c.operation
    · rw [if_pos hyc] at hxy; exact Or.inr hxy.symm
    · rw [if_neg hyc] at hxy; exact Or.inl (hxy ▸ hy)
  · rw [if_neg hc] at h
    rw [List.map_cons, List.cons_append] at h
    simp only [List.tail_cons] at h
    rcases List.mem_append.mp h with h1 | h1
    · rcases List.mem_map.mp h1 with ⟨y, hy, hxy⟩
      by_cases hyc : y.operation = c.operation
      · rw [if_pos hyc] at hxy; exact Or.inr hxy.symm
      · rw [if_neg hyc] at hxy; exact Or.inl (hxy ▸ hy)
    · exact Or.inr (List.mem_singleton.mp h1)

/-! ## Recipe manager invariants -/

theorem odFind_none_iff {β : Type} (m : List (String × β)) (k : String) :
    odFind m k = none ↔ k ∉ m.map Prod.fst := by
  induction m with
  | nil => simp [odFind]
  | cons p rest ih =>
      obtain ⟨pk, pv⟩ := p
      by_cases hp : pk = k
      · simp [odFind, hp]
      · have hkp : ¬ (k = pk) := fun e => hp e.symm
        simp [odFind, hp, ih, hkp]

/-- Well-formedness of one scope's rule list under key `k`: nonempty, every
rule's own regex is the scope key, operations are pairwise distinct, only
the head may be an ALL rule, and every non-ALL rule passed the
algorithm-manager registration check when it was added. -/
def ScopeWF (isOpRegistered : String → TFLOpName → Bool) (k : String)
    (rs : List OpQuantizationRecipe) : Prop :=
  rs ≠ [] ∧ (∀ r ∈ rs, r.regex = k) ∧ DistinctOps rs ∧
  (∀ r ∈ rs.tail, r.operation ≠ TFLOpName.ALL) ∧
  (∀ r ∈ rs, r.operation ≠ TFLOpName.ALL →
    r.algorithm_key = NO_QUANT ∨
      isOpRegistered r.algorithm_key r.operation = true)

/-- Well-formedness of a full manager state: scope keys are distinct and
every scope is well-formed. -/
def ManagerWF (isOpRegistered : String → TFLOpName → Bool)
    (st : RecipeManagerState) : Prop :=
  (st.map Prod.fst).Nodup ∧ ∀ p ∈ st, ScopeWF isOpRegistered p.1 p.2

theorem scopeWF_singleton (isOpRegistered : String → TFLOpName → Bool)
    (k : String) (c : OpQuantizationRecipe) (hreg : c.regex = k)
    (halg : c.operation ≠ TFLOpName.ALL →
      c.algorithm_key = NO_QUANT ∨
        isOpRegistered c.algorithm_key c.operation = true) :
    ScopeWF isOpRegistered k [c] := by
  refine ⟨by simp, ?_, ?_, by simp, ?_⟩
  · intro r hr
    rw [List.mem_singleton.mp hr]
    exact hreg
  · unfold DistinctOps
    simp
  · intro r hr
    rw [List.mem_singleton.mp hr]
    exact halg

theorem scopeWF_updateConfigs (isOpRegistered : String → TFLOpName → Bool)
    (k : String) (configs : List OpQuantizationRecipe)
    (c : OpQuantizationRecipe) (hwf : ScopeWF isOpRegistered k configs)
    (hreg : c.regex = k) (hop : c.operation ≠ TFLOpName.ALL)
    (halg : c.algorithm_key = NO_QUANT ∨
      isOpRegistered c.algorithm_key c.operation = true) :
    ScopeWF isOpRegistered k (updateConfigs configs c) := by
  obtain ⟨hne, hrg, hd, htl, hrc⟩ := hwf
  refine ⟨updateConfigs_ne_nil configs c hne, ?_, distinctOps_updateConfigs configs c hd, ?_, ?_⟩
  · intro r hr
    rcases mem_updateConfigs configs c r hr with h | h
    · exact hrg r h
    · rw [h]; exact hreg
  · match configs, hne with
    | e :: t, _ =>
        intro r hr
        rcases tail_updateConfigs_mem t e c r hr with h | h
        · exact htl r h
        · rw [h]; exact hop
  · intro r hr
    rcases mem_updateConfigs configs c r hr with h | h
    · exact hrc r h
    · intro _; rw [h]; exact halg

theorem add_preserves_WF (isOpRegistered : String → TFLOpName → Bool)
    (st st' : RecipeManagerState) (regex : String) (op : TFLOpName)
    (cfg : Option OpQuantizationConfig) (alg : String) (ov : Bool)
    (hwf : ManagerWF isOpRegistered st)
    (h : add_quantization_config isOpRegistered st regex op cfg alg ov =
      Except.ok st') : ManagerWF isOpRegistered st' := by
  unfold add_quantization_config at h
  set config : OpQuantizationRecipe :=
    { regex := regex, operation := op, algorithm_key := alg,
      op_config := cfg.getD defaultOpQuantizationConfig,
      override_algorithm := ov } with hconfig
  have hkeys : ∀ (v : List OpQuantizationRecipe),
      ((odSet st regex v).map Prod.fst).Nodup := by
    intro v
    cases hfind : odFind st regex with
    | none =>
        rw [odSet_keys_of_find_none st regex v hfind]
        rw [List.nodup_append]
        exact ⟨hwf.1, List.nodup_singleton _,
          by simpa using (odFind_none_iff st regex).mp hfind⟩
    | some w => rw [odSet_keys_of_find_some st regex v w hfind]; exact hwf.1
  by_cases hALL : op = TFLOpName.ALL
  · rw [if_pos (by simpa [hconfig] using hALL)] at h
    have hst' : st' = odSet st regex [config] := by
      injection h with h2
      exact h2.symm
    subst hst'
    refine ⟨hkeys _, ?_⟩
    intro p hp
    rcases mem_odSet st regex [config] p hp with h1 | h1
    · rw [h1]
      exact scopeWF_singleton isOpRegistered regex config rfl
        (fun hc => absurd hALL hc)
    · exact hwf.2 p h1
  · rw [if_neg (by simpa [hconfig] using hALL)] at h
    by_cases hchk : alg ≠ NO_QUANT ∧ ¬ isOpRegistered alg op = true
    · rw [if_pos hchk] at h
      exact absurd h (by simp)
    · rw [if_neg hchk] at h
      have halg : alg = NO_QUANT ∨ isOpRegistered alg op = true := by
        by_cases h1 : alg = NO_QUANT
        · exact Or.inl h1
        · right
          by_contra h2
          exact hchk ⟨h1, h2⟩
      cases hfind : odFind st regex with
      | none =>
          rw [hfind] at h
          have hst' : st' = odSet st regex [config] := by
            injection h with h2
            exact h2.symm
          subst hst'
          refine ⟨hkeys _, ?_⟩
          intro p hp
          rcases mem_odSet st regex [config] p hp with h1 | h1
          · rw [h1]
            exact scopeWF_singleton isOpRegistered regex config rfl
              (fun _ => halg)
          · exact hwf.2 p h1
      | some configs =>
          rw [hfind] at h
          have hst' : st' = odSet st regex (updateConfigs configs config) := by
            injection h with h2
            exact h2.symm
          subst hst'
          refine ⟨hkeys _, ?_⟩
          intro p hp
          rcases mem_odSet st regex (updateConfigs configs config) p hp
            with h1 | h1
          · rw [h1]
            exact scopeWF_updateConfigs isOpRegistered regex configs config
              (hwf.2 _ (odFind_mem st regex configs hfind)) rfl hALL halg
          · exact hwf.2 p h1

theorem reachable_WF (isOpRegistered : String → TFLOpName → Bool)
    (st : RecipeManagerState)
    (h : ReachableRecipe isOpRegistered st) :
    ManagerWF isOpRegistered st := by
  induction h with
  | empty => exact ⟨List.nodup_nil, by simp⟩
  | add hr hadd ih => exact add_preserves_WF _ _ _ _ _ _ _ _ ih hadd

/-- C3: after any sequence of successful `add_quantization_config` calls,
every scope's rule list has pairwise-distinct target operations (at most
one rule per operation); adding a rule for an operation that already has a
rule in a scope replaces it in place, preserving its list position; and
adding a rule with operation ALL leaves that scope with exactly the one
new ALL rule, discarding all prior rules of the scope. -/
theorem add_quantization_config_dedup_invariant :
    (∀ (isReg : String → TFLOpName → Bool) (st : RecipeManagerState),
      ReachableRecipe isReg st → ∀ p ∈ st, DistinctOps p.2) ∧
    (∀ (isReg : String → TFLOpName → Bool) (st st' : RecipeManagerState)
        (regex : String) (rs : List OpQuantizationRecipe) (i : Nat)
        (r : OpQuantizationRecipe) (cfg : Option OpQuantizationConfig)
        (alg : String) (ov : Bool),
      ReachableRecipe isReg st →
      odFind st regex = some rs → rs[i]? = some r →
      r.operation ≠ TFLOpName.ALL →
      add_quantization_config isReg st regex r.operation cfg alg ov =
        Except.ok st' →
      odFind st' regex = some (rs.set i
        { regex := regex, operation := r.operation, algorithm_key := alg,
          op_config := cfg.getD defaultOpQuantizationConfig,
          override_algorithm := ov })) ∧
    (∀ (isReg : String → TFLOpName → Bool) (st st' : RecipeManagerState)
        (regex : String) (cfg : Option OpQuantizationConfig) (alg : String)
        (ov : Bool),
      add_quantization_config isReg st regex TFLOpName.ALL cfg alg ov =
        Except.ok st' →
      odFind st' regex = some
        [{ regex := regex, operation := TFLOpName.ALL, algorithm_key := alg,
           op_config := cfg.getD defaultOpQuantizationConfig,
           override_algorithm := ov }]) := by
  refine ⟨?_, ?_, ?_⟩
  · intro isReg st hreach p hp
    exact ((reachable_WF isReg st hreach).2 p hp).2.2.1
  · intro isReg st st' regex rs i r cfg alg ov hreach hfind hget hop hadd
    have hd : DistinctOps rs :=
      ((reachable_WF isReg st hreach).2 _
        (odFind_mem st regex rs hfind)).2.2.1
    unfold add_quantization_config at hadd
    rw [if_neg (by simpa using hop)] at hadd
    by_cases hchk : alg ≠ NO_QUANT ∧ ¬ isReg alg r.operation = true
    · rw [if_pos hchk] at hadd
      exact absurd hadd (by simp)
    · rw [if_neg hchk, hfind] at hadd
      have hst' : st' = odSet st regex (updateConfigs rs
          { regex := regex, operation := r.operation, algorithm_key := alg,
            op_config := cfg.getD defaultOpQuantizationConfig,
            override_algorithm := ov }) := by
        injection hadd with h2
        exact h2.symm
      subst hst'
      rw [odFind_odSet_self,
        updateConfigs_set rs
          { regex := regex, operation := r.operation, algorithm_key := alg,
            op_config := cfg.getD defaultOpQuantizationConfig,
            override_algorithm := ov } i r hd hget rfl]
  · intro isReg st st' regex cfg alg ov hadd
    unfold add_quantization_config at hadd
    rw [if_pos (by simp)] at hadd
    have hst' : st' = odSet st regex
        [{ regex := regex, operation := TFLOpName.ALL, algorithm_key := alg,
           op_config := cfg.getD defaultOpQuantizationConfig,
           override_algorithm := ov }] := by
      injection hadd with h2
      exact h2.symm
    subst hst'
    rw [odFind_odSet_self]

/-- Concrete rules for the C3 witness. -/
def recipeW1 : OpQuantizationRecipe :=
  { regex := "s", operation := TFLOpName.FULLY_CONNECTED,
    algorithm_key := "ptq", op_config := defaultOpQuantizationConfig,
    override_algorithm := true }

def recipeW2 : OpQuantizationRecipe :=
  { regex := "s", operation := TFLOpName.FULLY_CONNECTED,
    algorithm_key := "alg2", op_config := defaultOpQuantizationConfig,
    override_algorithm := false }

def recipeWALL : OpQuantizationRecipe :=
  { regex := "s", operation := TFLOpName.ALL, algorithm_key := "ptq2",
    op_config := defaultOpQuantizationConfig, override_algorithm := false }

/-- C3 witness: the invariant theorem applied at concrete manager states. -/
theorem add_quantization_config_dedup_invariant_witness :
    DistinctOps [recipeW1] ∧
    odFind [("s", [recipeW2])] "s" = some ([recipeW1].set 0 recipeW2) ∧
    odFind [("s", [recipeWALL])] "s" = some [recipeWALL] := by
  have hadd1 : add_quantization_config (fun _ _ => true) [] "s"
      TFLOpName.FULLY_CONNECTED none "ptq" true =
      Except.ok [("s", [recipeW1])] := rfl
  have hreach : ReachableRecipe (fun _ _ => true) [("s", [recipeW1])] :=
    ReachableRecipe.add ReachableRecipe.empty hadd1
  refine ⟨?_, ?_, ?_⟩
  · exact add_quantization_config_dedup_invariant.1 (fun _ _ => true)
      [("s", [recipeW1])] hreach ("s", [recipeW1]) (by simp)
  · exact add_quantization_config_dedup_invariant.2.1 (fun _ _ => true)
      [("s", [recipeW1])] [("s", [recipeW2])] "s" [recipeW1] 0 recipeW1
      none "alg2" false hreach rfl rfl (by decide) rfl
  · exact add_quantization_config_dedup_invariant.2.2 (fun _ _ => true)
      [] [("s", [recipeWALL])] "s" none "ptq2" false rfl

/-! ## Recipe save/load round trip -/

/-- Replaying a list of serialized rules through
`add_quantization_config`, the loop body of `load_quantization_recipe`. -/
def replayRules (isOpRegistered : String → TFLOpName → Bool)
    (st : RecipeManagerState) (rules : List OpQuantizationRecipe) :
    Except String RecipeManagerState :=
  rules.foldlM
    (fun st r =>
      add_quantization_config isOpRegistered st r.regex r.operation
        (some r.op_config) r.algorithm_key r.override_algorithm)
    st

theorem odSet_append_key {β : Type} (m : List (String × β)) (k : String)
    (x v : β) (h : odFind m k = none) :
    odSet (m ++ [(k, x)]) k v = m ++ [(k, v)] := by
  induction m with
  | nil => simp [odSet]
  | cons p rest ih =>
      obtain ⟨pk, pv⟩ := p
      simp only [odFind] at h
      by_cases hp : pk = k
      · rw [if_pos hp] at h
        exact absurd h (by simp)
      · rw [if_neg hp] at h
        simp [odSet, hp, ih h]

theorem odFind_append_self {β : Type} (m : List (String × β)) (k : String)
    (v : β) (h : odFind m k = none) :
    odFind (m ++ [(k, v)]) k = some v := by
  rw [odFind_append_none m _ k h]
  simp [odFind]

theorem replayRules_cont (isOpRegistered : String → TFLOpName → Bool)
    (k : String) :
    ∀ (rules done : List OpQuantizationRecipe) (st : RecipeManagerState),
      odFind st k = some done →
      (∀ r ∈ rules, r.regex = k ∧ r.operation ≠ TFLOpName.ALL ∧
        (r.algorithm_key = NO_QUANT ∨
          isOpRegistered r.algorithm_key r.operation = true)) →
      ((done ++ rules).map (fun r => r.operation)).Nodup →
      replayRules isOpRegistered st rules =
        Except.ok (odSet st k (done ++ rules)) := by
  intro rules
  induction rules with
  | nil =>
      intro done st hfind _ _
      simp only [replayRules, List.foldlM_nil, List.append_nil]
      rw [odSet_self_of_find st k done hfind]
      rfl
  | cons r rest ih =>
      intro done st hfind hrules hnodup
      obtain ⟨hrg, hop, halg⟩ := hrules r (List.mem_cons_self _ _)
      have hnm : ∀ e ∈ done, e.operation ≠ r.operation := by
        intro e he hee
        rw [List.map_append] at hnodup
        rcases List.nodup_append.mp hnodup with ⟨_, _, hdisj⟩
        exact hdisj (List.mem_map_of_mem _ he)
          (by
            simp only [List.map_cons, List.mem_cons]
            exact Or.inl hee)
      have hadd : add_quantization_config isOpRegistered st r.regex
          r.operation (some r.op_config) r.algorithm_key
          r.override_algorithm =
          Except.ok (odSet st k (done ++ [r])) := by
        unfold add_quantization_config
        rw [if_neg (by simpa using hop),
          if_neg (by
            intro hc
            rcases halg with h1 | h1
            · exact hc.1 h1
            · exact hc.2 h1)]
        have hfind' : odFind st r.regex = some done := by
          rw [hrg]; exact hfind
        rw [hfind']
        show Except.ok (odSet st r.regex (updateConfigs done r)) = _
        rw [updateConfigs_of_not_mem done r hnm, hrg]
      have hstep : replayRules isOpRegistered st (r :: rest) =
          replayRules isOpRegistered (odSet st k (done ++ [r])) rest := by
        simp only [replayRules, List.foldlM_cons]
        rw [hadd]
        rfl
      rw [hstep,
        ih (done ++ [r]) (odSet st k (done ++ [r]))
          (odFind_odSet_self st k (done ++ [r]))
          (fun x hx => hrules x (List.mem_cons_of_mem _ hx))
          (by simpa using hnodup),
        odSet_odSet]
      simp

theorem replayRules_scope (isOpRegistered : String → TFLOpName → Bool)
    (k : String) (rules : List OpQuantizationRecipe)
    (st : RecipeManagerState) (hfind : odFind st k = none)
    (hwf : ScopeWF isOpRegistered k rules) :
    replayRules isOpRegistered st rules = Except.ok (st ++ [(k, rules)]) := by
  obtain ⟨hne, hrg, hd, htl, hrc⟩ := hwf
  match rules, hne with
  | r0 :: rest, _ =>
      have hrg0 : r0.regex = k := hrg r0 (List.mem_cons_self _ _)
      have hadd : add_quantization_config isOpRegistered st r0.regex
          r0.operation (some r0.op_config) r0.algorithm_key
          r0.override_algorithm = Except.ok (st ++ [(k, [r0])]) := by
        unfold add_quantization_config
        by_cases h0 : r0.operation = TFLOpName.ALL
        · rw [if_pos (by simpa using h0)]
          show Except.ok (odSet st r0.regex [r0]) = _
          rw [hrg0, odSet_of_find_none st k _ hfind]
        · rw [if_neg (by simpa using h0),
            if_neg (by
              intro hc
              rcases hrc r0 (List.mem_cons_self _ _) h0 with h1 | h1
              · exact hc.1 h1
              · exact hc.2 h1)]
          have hfind' : odFind st r0.regex = none := by
            rw [hrg0]; exact hfind
          rw [hfind']
          show Except.ok (odSet st r0.regex [r0]) = _
          rw [hrg0, odSet_of_find_none st k _ hfind]
      have hstep : replayRules isOpRegistered st (r0 :: rest) =
          replayRules isOpRegistered (st ++ [(k, [r0])]) rest := by
        simp only [replayRules, List.foldlM_cons]
        rw [hadd]
        rfl
      rw [hstep,
        replayRules_cont isOpRegistered k rest [r0] (st ++ [(k, [r0])])
          (odFind_append_self st k [r0] hfind)
          (fun x hx =>
            ⟨hrg x (List.mem_cons_of_mem _ hx),
             htl x (by simpa using hx),
             hrc x (List.mem_cons_of_mem _ hx) (htl x (by simpa using hx))⟩)
          hd,
        odSet_append_key st k [r0] ([r0] ++ rest) hfind]
      simp

theorem replayRules_save (isOpRegistered : String → TFLOpName → Bool) :
    ∀ (m st0 : RecipeManagerState), ManagerWF isOpRegistered m →
      (∀ k ∈ m.map Prod.fst, odFind st0 k = none) →
      replayRules isOpRegistered st0 (get_quantization_recipe m) =
        Except.ok (st0 ++ m) := by
  intro m
  induction m with
  | nil =>
      intro st0 _ _
      simp only [get_quantization_recipe, List.flatMap_nil, replayRules,
        List.foldlM_nil, List.append_nil]
      rfl
  | cons scope rest ih =>
      intro st0 hwf hfresh
      obtain ⟨k, rs⟩ := scope
      have hsave : get_quantization_recipe ((k, rs) :: rest) =
          rs ++ get_quantization_recipe rest := by
        simp [get_quantization_recipe]
      rw [hsave]
      have hk : odFind st0 k = none := hfresh k (by simp)
      have hscope : replayRules isOpRegistered st0 rs =
          Except.ok (st0 ++ [(k, rs)]) :=
        replayRules_scope isOpRegistered k rs st0 hk
          (hwf.2 (k, rs) (List.mem_cons_self _ _))
      have hknotin : k ∉ rest.map Prod.fst := by
        have := hwf.1
        simp only [List.map_cons] at this
        exact (List.nodup_cons.mp this).1
      have hsplit : replayRules isOpRegistered st0
          (rs ++ get_quantization_recipe rest) =
          replayRules isOpRegistered (st0 ++ [(k, rs)])
            (get_quantization_recipe rest) := by
        simp only [replayRules, List.foldlM_append]
        rw [show (rs.foldlM (fun st r =>
            add_quantization_config isOpRegistered st r.regex r.operation
              (some r.op_config) r.algorithm_key r.override_algorithm)
            st0) = Except.ok (st0 ++ [(k, rs)]) from hscope]
        rfl
      rw [hsplit,
        ih (st0 ++ [(k, rs)])
          ⟨(List.nodup_cons.mp (by simpa using hwf.1)).2,
           fun p hp => hwf.2 p (List.mem_cons_of_mem _ hp)⟩
          (by
            intro k' hk'
            have hne : ¬ (k = k') := fun e => hknotin (e ▸ hk')
            rw [odFind_append_none st0 _ k' (hfresh k'
              (by simp [hk']))]
            simp [odFind, hne])]
      simp

/-- C9: saving and reloading a recipe is a round trip: for every manager
state reachable by successful `add_quantization_config` calls, loading the
output of `get_quantization_recipe` reproduces the state exactly, and
hence `get_quantization_configs` answers every (target operation, scope
name) query identically before and after. -/
theorem recipe_save_load_round_trip
    (isOpRegistered : String → TFLOpName → Bool) (st : RecipeManagerState)
    (h : ReachableRecipe isOpRegistered st) :
    load_quantization_recipe isOpRegistered (get_quantization_recipe st) =
      Except.ok st ∧
    ∀ (reSearch : String → String → Bool) (st' : RecipeManagerState),
      load_quantization_recipe isOpRegistered
        (get_quantization_recipe st) = Except.ok st' →
      ∀ (target : TFLOpName) (scope_name : String),
        get_quantization_configs reSearch st' target scope_name =
          get_quantization_configs reSearch st target scope_name := by
  have hload : load_quantization_recipe isOpRegistered
      (get_quantization_recipe st) = Except.ok st := by
    have : load_quantization_recipe isOpRegistered
        (get_quantization_recipe st) =
        replayRules isOpRegistered [] (get_quantization_recipe st) := rfl
    rw [this,
      replayRules_save isOpRegistered st [] (reachable_WF _ _ h)
        (fun k _ => rfl)]
    simp
  refine ⟨hload, ?_⟩
  intro reSearch st' hst' target scope_name
  rw [hload] at hst'
  have : st' = st := by
    injection hst' with h2
    exact h2.symm
  rw [this]

/-- Concrete rule for the C9 witness. -/
def recipeW9 : OpQuantizationRecipe :=
  { regex := "s9", operation := TFLOpName.CONV_2D, algorithm_key := "ptq",
    op_config := defaultOpQuantizationConfig, override_algorithm := true }

/-- C9 witness: the round-trip theorem applied at a concrete reachable
manager state. -/
theorem recipe_save_load_round_trip_witness :
    load_quantization_recipe (fun _ _ => true)
      (get_quantization_recipe [("s9", [recipeW9])]) =
      Except.ok [("s9", [recipeW9])] := by
  have hadd9 : add_quantization_config (fun _ _ => true) [] "s9"
      TFLOpName.CONV_2D none "ptq" true =
      Except.ok [("s9", [recipeW9])] := rfl
  exact (recipe_save_load_round_trip (fun _ _ => true) [("s9", [recipeW9])]
    (ReachableRecipe.add ReachableRecipe.empty hadd9)).1

/-! ## Graph data model (flatbuffer objects)

Tensors, buffers and operators of the serialized model.  Machine floats
are modelled by rationals; a numpy array by its shape together with the
row-major flattened list of its entries.  Python list indexing out of
range raises `IndexError`; where a claim never exercises that path the
embedding uses a default element instead. -/

/-- Tensor element types (`schema_py_generated.TensorType`), restricted to
the ones the engine produces or reads. -/
inductive TensorType where
  | FLOAT32
  | INT8
  | INT16
  | INT32
  | INT64
  deriving DecidableEq, Repr

/-- `schema_py_generated.QuantizationParametersT` (fields the engine
touches).  `quantizedDimension` defaults to 0 in the flatbuffer object. -/
structure QuantizationParametersT where
  scale : Option (List ℚ) := none
  zeroPoint : Option (List ℤ) := none
  quantizedDimension : Nat := 0
  deriving DecidableEq, Repr

/-- `schema_py_generated.BufferT`: its (decoded) data, or none. -/
structure BufferT where
  data : Option (List ℚ) := none
  deriving DecidableEq, Repr

/-- `schema_py_generated.TensorT` (fields the engine touches). -/
structure TensorT where
  name : String
  shape : List Nat
  type : TensorType
  buffer : Nat
  quantization : Option QuantizationParametersT := none
  deriving DecidableEq, Repr

def defaultTensorT : TensorT :=
  { name := "", shape := [], type := TensorType.FLOAT32, buffer := 0 }

/-- `schema_py_generated.OperatorT` (fields the engine touches); `adjY` is
the batch-matmul `builtinOptions.adjY` flag. -/
structure OperatorT where
  inputs : List Int
  outputs : List Int
  adjY : Bool := false
  deriving DecidableEq, Repr

/-- `qtyping.GraphInfo`. -/
structure GraphInfo where
  subgraph_tensors : List TensorT
  buffers : List BufferT
  deriving DecidableEq, Repr

/-- `qtyping.OpInfo`. -/
structure OpInfo where
  op_name : TFLOpName
  subgraph_op_index : Nat
  op : OperatorT
  op_quant_config : OpQuantizationConfig
  deriving DecidableEq, Repr

/-- `tfl_flatbuffer_utils.has_same_quantization`.  The source dereferences
`tensor.quantization.scale`, which crashes with `AttributeError` when
exactly one tensor's quantization is `None`; that crash is the `none`
result. -/
def has_same_quantization (tensor1 tensor2 : TensorT) : Option Bool :=
  let same_type := decide (tensor1.type = tensor2.type)
  if tensor1.quantization.isNone ∧ tensor2.quantization.isNone then some true
  else
    match tensor1.quantization, tensor2.quantization with
    | some q1, some q2 =>
        if q1.scale.isNone ∧ q2.scale.isNone then some true
        else
          some (same_type
            && decide (q1.scale.getD [] = q2.scale.getD [])
            && decide (q1.zeroPoint.getD [] = q2.zeroPoint.getD [])
            && decide (q1.quantizedDimension = q2.quantizedDimension))
    | _, _ => none

/-- C10: for every pair of tensors that both have null quantization
metadata, or that both carry quantization metadata with a null scale list,
`has_same_quantization` returns true regardless of the tensors' declared
element types; the type-equality check can only influence the result when
at least one tensor carries a non-null scale. -/
theorem has_same_quantization_null_scale (t1 t2 : TensorT)
    (h : (t1.quantization = none ∧ t2.quantization = none) ∨
      (∃ q1 q2, t1.quantization = some q1 ∧ t2.quantization = some q2 ∧
        q1.scale = none ∧ q2.scale = none)) :
    has_same_quantization t1 t2 = some true := by
  rcases h with ⟨h1, h2⟩ | ⟨q1, q2, h1, h2, hs1, hs2⟩
  · unfold has_same_quantization
    rw [if_pos (by simp [h1, h2])]
  · unfold has_same_quantization
    rw [if_neg (by simp [h1]), h1, h2]
    simp only
    rw [if_pos (by simp [hs1, hs2])]

/-- C10 witness: two tensors with differing declared types (`INT8` versus
`FLOAT32`) and null scales compare as having the same quantization. -/
theorem has_same_quantization_null_scale_witness :
    has_same_quantization
      { name := "a", shape := [2], type := TensorType.INT8, buffer := 0,
        quantization := some { scale := none, zeroPoint := some [0] } }
      { name := "b", shape := [3], type := TensorType.FLOAT32, buffer := 1,
        quantization := some { scale := none, zeroPoint := some [7] } } =
      some true :=
  has_same_quantization_null_scale _ _
    (Or.inr ⟨_, _, rfl, rfl, rfl, rfl⟩)

/-! ## Quantize-tensor graph transformation (`transformations/quantize_tensor.py`) -/

/-- `qtyping.UniformQuantParams`. -/
structure UniformQuantParams where
  scale : List ℚ
  zero_point : List Int
  num_bits : Nat
  symmetric : Bool
  quantized_dimension : Option Nat := none
  quantized_data : Option (List Int) := none
  deriving DecidableEq, Repr

/-- `qtyping.TransformationInfo`. -/
structure TransformationInfo where
  op_id : Nat
  num_ops_added : Nat
  output_tensor_id : Nat
  deriving DecidableEq, Repr

/-- `schema_py_generated.SubGraphT` (fields the engine touches). -/
structure SubGraphT where
  tensors : List TensorT
  operators : List OperatorT
  deriving DecidableEq, Repr

/-- `quantize_tensor.quant_params_to_tflite_type`: integer tensor type for
a bit-width; raises `ValueError` on an unsupported width. -/
def quant_params_to_tflite_type (bitwidth : Nat) : Except String TensorType :=
  if bitwidth ≤ 8 then Except.ok TensorType.INT8
  else if bitwidth = 16 then Except.ok TensorType.INT16
  else if bitwidth = 32 then Except.ok TensorType.INT32
  else if bitwidth = 64 then Except.ok TensorType.INT64
  else Except.error "Unsupported quant params"

/-- `quantize_tensor.quantize_tensor`: rewrites the tensor's backing buffer
with the quantized data (when the tensor has a backing buffer and quantized
data is provided), installs scale/zero-point/quantized-dimension metadata,
sets the declared type from the bit-width, and reports zero inserted ops
with the edited tensor's id as output.  `op_codes`, `producer` and
`consumers` are deleted unused, as in the source. -/
def quantize_tensor (tensor_id : Nat) (op_codes : List Unit)
    (buffers : List BufferT) (subgraph : SubGraphT) (producer : Nat)
    (consumers : List Nat) (quant_params : UniformQuantParams) :
    Except String (List BufferT × SubGraphT × TransformationInfo) :=
  match subgraph.tensors[tensor_id]? with
  | none => Except.error "IndexError: subgraph.tensors"
  | some tensor =>
      let buffers' :=
        if tensor.buffer ≠ 0 then
          match quant_params.quantized_data with
          | some d =>
              buffers.set tensor.buffer
                { data := some (d.map (fun z => (z : ℚ))) }
          | none => buffers
        else buffers
      match quant_params_to_tflite_type quant_params.num_bits with
      | Except.error e => Except.error e
      | Except.ok ty =>
          let flatbuffer_quantization : QuantizationParametersT :=
            { scale := some quant_params.scale,
              zeroPoint := some quant_params.zero_point,
              quantizedDimension := quant_params.quantized_dimension.getD 0 }
          let tensor' := { tensor with
            quantization := some flatbuffer_quantization, type := ty }
          Except.ok (buffers',
            { subgraph with tensors := subgraph.tensors.set tensor_id tensor' },
            { op_id := 0, num_ops_added := 0, output_tensor_id := tensor_id })

/-- C7: applying QUANTIZE_TENSOR inserts no operator nodes and preserves
the tensor's identity (`num_ops_added = 0`, `output_tensor_id` is the
edited tensor's id, name/shape/buffer binding unchanged); it overwrites the
tensor's backing buffer with the quantized values when quantized data is
provided, writes scale, zero-point and quantized-dimension metadata, and
sets the declared type to the integer type derived from the bit-width; all
other tensors, all other buffers and every operator node are unchanged. -/
theorem quantize_tensor_spec (tensor_id : Nat) (op_codes : List Unit)
    (buffers : List BufferT) (subgraph : SubGraphT) (producer : Nat)
    (consumers : List Nat) (quant_params : UniformQuantParams)
    (tensor : TensorT) (ty : TensorType)
    (ht : subgraph.tensors[tensor_id]? = some tensor)
    (hty : quant_params_to_tflite_type quant_params.num_bits =
      Except.ok ty) :
    ∃ buffers' sg' info,
      quantize_tensor tensor_id op_codes buffers subgraph producer consumers
        quant_params = Except.ok (buffers', sg', info) ∧
      info.num_ops_added = 0 ∧
      info.output_tensor_id = tensor_id ∧
      sg'.operators = subgraph.operators ∧
      (∀ j, j ≠ tensor_id → sg'.tensors[j]? = subgraph.tensors[j]?) ∧
      sg'.tensors[tensor_id]? = some { tensor with
        type := ty,
        quantization := some
          { scale := some quant_params.scale,
            zeroPoint := some quant_params.zero_point,
            quantizedDimension := quant_params.quantized_dimension.getD 0 } } ∧
      (∀ b, b ≠ tensor.buffer → buffers'[b]? = buffers[b]?) ∧
      (tensor.buffer = 0 ∨ quant_params.quantized_data = none →
        buffers' = buffers) ∧
      (∀ d, tensor.buffer ≠ 0 → quant_params.quantized_data = some d →
        tensor.buffer < buffers.length →
        buffers'[tensor.buffer]? =
          some { data := some (d.map (fun z => (z : ℚ))) }) := by
  refine ⟨(if tensor.buffer ≠ 0 then
      match quant_params.quantized_data with
      | some d =>
          buffers.set tensor.buffer
            { data := some (d.map (fun z => (z : ℚ))) }
      | none => buffers
    else buffers),
    { subgraph with tensors :=
        (subgraph.tensors.set tensor_id
          { tensor with
            quantization := some
              { scale := some quant_params.scale,
                zeroPoint := some quant_params.zero_point,
                quantizedDimension :=
                  quant_params.quantized_dimension.getD 0 },
            type := ty }) },
    { op_id := 0, num_ops_added := 0, output_tensor_id := tensor_id },
    ?_, rfl, rfl, rfl, ?_, ?_, ?_, ?_, ?_⟩
  · unfold quantize_tensor
    rw [ht, hty]
  · intro j hj
    simp only
    rw [List.getElem?_set_ne (by omega)]
  · simp only
    have hlt : tensor_id < subgraph.tensors.length :=
      (List.getElem?_eq_some_iff.mp ht).1
    rw [List.getElem?_set_self hlt]
  · intro b hb
    by_cases h0 : tensor.buffer = 0
    · rw [if_neg (by simpa using h0)]
    · rw [if_pos (by simpa using h0)]
      cases hd : quant_params.quantized_data with
      | none => rfl
      | some d => rw [List.getElem?_set_ne (by omega)]
  · intro h
    rcases h with h0 | hd
    · rw [if_neg (by simpa using h0)]
    · by_cases h0 : tensor.buffer = 0
      · rw [if_neg (by simpa using h0)]
      · rw [if_pos (by simpa using h0), hd]
  · intro d hb hd hlen
    rw [if_pos (by simpa using hb), hd]
    rw [List.getElem?_set_self hlen]

/-- Concrete tensor for the C7 witness. -/
def tensorW7 : TensorT :=
  { name := "w", shape := [2], type := TensorType.FLOAT32, buffer := 1,
    quantization := none }

/-- Concrete subgraph for the C7 witness. -/
def subgraphW7 : SubGraphT := { tensors := [tensorW7], operators := [] }

/-- Concrete buffers for the C7 witness. -/
def buffersW7 : List BufferT :=
  [{ data := none }, { data := some [(3 : ℚ)/2, -(5 : ℚ)/2] }]

/-- Concrete quantization parameters for the C7 witness. -/
def qparamsW7 : UniformQuantParams :=
  { scale := [(1 : ℚ)/2], zero_point := [0], num_bits := 8,
    symmetric := true, quantized_dimension := none,
    quantized_data := some [3, -5] }

/-- C7 witness: the quantize-tensor theorem applied to a concrete one-tensor
subgraph. -/
theorem quantize_tensor_spec_witness :
    ∃ (buffers' : List BufferT) (sg' : SubGraphT)
      (info : TransformationInfo),
      quantize_tensor 0 [] buffersW7 subgraphW7 0 [] qparamsW7 =
        Except.ok (buffers', sg', info) ∧
      info.num_ops_added = 0 ∧ info.output_tensor_id = 0 := by
  obtain ⟨b, s, i, h1, h2, h3, _⟩ :=
    quantize_tensor_spec 0 [] buffersW7 subgraphW7 0 [] qparamsW7
      tensorW7 TensorType.INT8 rfl rfl
  exact ⟨b, s, i, h1, h2, h3⟩

/-! ## Numeric codec

`algorithms/uniform_quantize/uniform_quantize_tensor.py` is not under
`src/` (only its unit test is), so its functions are modelled from the
spec's section 4.1, checked against
`uniform_quantize_tensor_test.py`. -/

/-- The coordinate along `axis` of the flat (row-major) index `i` of an
array with the given shape. -/
def coordAt (shape : List Nat) (axis : Nat) (i : Nat) : Nat :=
  (i / (shape.drop (axis + 1)).prod) % shape.getD axis 1

/-- Minimum of a list of rationals (`np.min`; 0 on the empty list, which
numpy rejects). -/
def listMin (l : List ℚ) : ℚ :=
  match l with
  | [] => 0
  | x :: xs => xs.foldl min x

/-- Maximum of a list of rationals (`np.max`). -/
def listMax (l : List ℚ) : ℚ :=
  match l with
  | [] => 0
  | x :: xs => xs.foldl max x

/-- `np.min`/`np.max` over every axis except `quantized_dim` with
`keepdims=True`, flattened: one entry per index along the kept axis (a
single entry when every axis is reduced). -/
def reduceExcept (f : List ℚ → ℚ) (shape : List Nat) (data : List ℚ)
    (quantized_dim : Option Nat) : List ℚ :=
  match quantized_dim with
  | none => [f data]
  | some d =>
      (List.range (shape.getD d 1)).map (fun c =>
        f (((List.range data.length).filter
          (fun i => coordAt shape d i = c)).map (fun i => data.getD i 0)))

/-- Modelled from the spec: the rounding function of the Numeric Codec
(`round`), as round half up. -/
def specRound (x : ℚ) : Int := ⌊x + 1/2⌋

/-- Modelled from the spec: the quantized integer domain `[qmin, qmax]` for
a signed encoding — symmetric reserves one negative code so zero is exact
(`qmin = -2^(bits-1)+1`), asymmetric uses `qmin = -2^(bits-1)`; both use
`qmax = 2^(bits-1)-1`. -/
def quantizedRange (num_bits : Nat) (symmetric : Bool) : Int × Int :=
  (if symmetric then -(2 ^ (num_bits - 1)) + 1 else -(2 ^ (num_bits - 1)),
    2 ^ (num_bits - 1) - 1)

/-- Modelled from the spec: `uniform_quantize_tensor.uniform_quantize`:
`round(tensor/scale) + zeroPoint`, clamped to `[qmin, qmax]` of the
declared bit-width, with scale and zero-point broadcast along the
quantized dimension when per-channel. -/
def uniform_quantize (shape : List Nat) (data : List ℚ)
    (params : UniformQuantParams) : List Int :=
  let qr := quantizedRange params.num_bits params.symmetric
  (List.range data.length).map (fun i =>
    let ci : Nat :=
      match params.quantized_dimension with
      | none => 0
      | some d => if params.scale.length = 1 then 0 else coordAt shape d i
    let s := params.scale.getD ci 1
    let z := params.zero_point.getD ci 0
    max qr.1 (min qr.2 (specRound (data.getD i 0 / s) + z)))

/-- Modelled from the spec:
`uniform_quantize_tensor.symmetric_quantize_bias_tensor`
(`quantizeBias(biasValues, inputParams, weightParams)`): always symmetric
with every zero-point exactly 0; effective scale is the elementwise
product of the (scalar) input scale and the weight scale — per-channel
exactly when the weight is per-channel; bit-width 32 when the input
bit-width is 8 and 64 otherwise; quantized values computed via
`uniform_quantize`.  Checked against
`uniform_quantize_tensor_test.test_quantize_bias_tensor`. -/
def symmetric_quantize_bias_tensor (bias_content : List ℚ)
    (input_quant_params weight_quant_params : UniformQuantParams) :
    UniformQuantParams :=
  let input_scale0 := input_quant_params.scale.getD 0 1
  let scale := weight_quant_params.scale.map (fun ws => input_scale0 * ws)
  let bias_bits : Nat := if input_quant_params.num_bits = 8 then 32 else 64
  let qd : Option Nat := if scale.length = 1 then none else some 0
  let base : UniformQuantParams :=
    { scale := scale, zero_point := List.replicate scale.length 0,
      num_bits := bias_bits, symmetric := true, quantized_dimension := qd,
      quantized_data := none }
  let qdata := uniform_quantize [bias_content.length] bias_content base
  { base with quantized_data := some qdata }

/-- Modelled from the spec: `tensor_zp_scale_from_min_max`
(`rangeFromMinMax(min, max, bits, symmetric)`), elementwise over the
min/max arrays: symmetric gives zero-point 0 and
`scale = max(|min|,|max|)/qmax`; asymmetric first extends the range to
span zero, then `scale = (max-min)/(qmax-qmin)` and
`zeroPoint = round(qmin - min/scale)` clamped to `[qmin, qmax]`.  Returns
`(zero_points, scales)`. -/
def tensor_zp_scale_from_min_max (minv maxv : List ℚ) (num_bits : Nat)
    (symmetric : Bool) : List Int × List ℚ :=
  let qr := quantizedRange num_bits symmetric
  if symmetric then
    (minv.map (fun _ => 0),
     (List.zip minv maxv).map (fun p => max |p.1| |p.2| / (qr.2 : ℚ)))
  else
    let bounds := (List.zip minv maxv).map (fun p => (min p.1 0, max p.2 0))
    let scales := bounds.map (fun p => (p.2 - p.1) / ((qr.2 - qr.1 : Int) : ℚ))
    (List.zipWith
      (fun (p : ℚ × ℚ) s =>
        max qr.1 (min qr.2 (specRound ((qr.1 : ℚ) - p.1 / s))))
      bounds scales,
     scales)

/-- C6: for every bias tensor and every pair of input and weight
quantization parameters, the bias quantization routine returns parameters
that are symmetric with every zero-point exactly 0, whose scale is the
elementwise product of the (scalar) input scale with the weight scale
(per-channel exactly when the weight scale is, scalar otherwise), and
whose bit-width is 32 when the input bit-width is 8 and 64 for every
other input bit-width. -/
theorem symmetric_quantize_bias_tensor_spec (bias_content : List ℚ)
    (input_quant_params weight_quant_params : UniformQuantParams) :
    (symmetric_quantize_bias_tensor bias_content input_quant_params
      weight_quant_params).symmetric = true ∧
    (symmetric_quantize_bias_tensor bias_content input_quant_params
      weight_quant_params).zero_point =
      List.replicate weight_quant_params.scale.length 0 ∧
    (symmetric_quantize_bias_tensor bias_content input_quant_params
      weight_quant_params).scale =
      weight_quant_params.scale.map
        (fun ws => input_quant_params.scale.getD 0 1 * ws) ∧
    (symmetric_quantize_bias_tensor bias_content input_quant_params
      weight_quant_params).num_bits =
      (if input_quant_params.num_bits = 8 then 32 else 64) := by
  refine ⟨rfl, ?_, rfl, rfl⟩
  unfold symmetric_quantize_bias_tensor
  simp [List.length_map]

/-! ## Tensor materialization (`min_max_quantize_utils.py`) -/

/-- A numpy array: its shape and its row-major flattened entries. -/
structure NDArray where
  shape : List Nat
  data : List ℚ
  deriving DecidableEq, Repr

/-- `tfl_flatbuffer_utils.get_tensor_data`: the tensor's buffer contents
reshaped to the tensor's shape, or none for a non-constant tensor.
(Python raises `IndexError` on an out-of-range buffer index; the claims
never exercise that path.) -/
def get_tensor_data (tensor : TensorT) (buffers : List BufferT) :
    Option NDArray :=
  match buffers[tensor.buffer]? with
  | none => none
  | some b => b.data.map (fun l => { shape := tensor.shape, data := l })

/-- `tfl_flatbuffer_utils.TFL_OP_TO_WEIGHT_QUANTIZED_DIM`. -/
def TFL_OP_TO_WEIGHT_QUANTIZED_DIM (op : TFLOpName) : Option Nat :=
  match op with
  | TFLOpName.FULLY_CONNECTED => some 0
  | TFLOpName.DEPTHWISE_CONV_2D => some 3
  | TFLOpName.CONV_2D => some 0
  | TFLOpName.EMBEDDING_LOOKUP => some 0
  | _ => none

/-- `min_max_quantize_utils._get_bmm_weight_quantized_dim`: the last
dimension, or the second-to-last when the right operand is
pre-transposed. -/
def get_bmm_weight_quantized_dim (rank : Nat) (adj_y : Bool) : Nat :=
  if adj_y then rank - 2 else rank - 1

/-- `min_max_quantize_utils._SUPPORTED_WEIGHT_ONLY_OPS`. -/
def SUPPORTED_WEIGHT_ONLY_OPS : List TFLOpName :=
  [TFLOpName.FULLY_CONNECTED, TFLOpName.CONV_2D, TFLOpName.BATCH_MATMUL,
   TFLOpName.EMBEDDING_LOOKUP, TFLOpName.DEPTHWISE_CONV_2D]

/-- `min_max_quantize_utils._SUPPORTED_DRQ_OPS`. -/
def SUPPORTED_DRQ_OPS : List TFLOpName :=
  [TFLOpName.FULLY_CONNECTED, TFLOpName.CONV_2D, TFLOpName.BATCH_MATMUL,
   TFLOpName.EMBEDDING_LOOKUP, TFLOpName.DEPTHWISE_CONV_2D]

/-- A per-tensor calibration-statistics entry (QSV): its min and max
arrays, flattened. -/
structure QSV where
  min : List ℚ
  max : List ℚ
  deriving DecidableEq, Repr

/-- `min_max_quantize_utils.init_tensor_min_max`: broadcast initial values
for a non-constant tensor; the exact min/max of the embedded data for a
constant tensor, reduced over every axis except the weight quantized
dimension when the weight config is per-channel. -/
def init_tensor_min_max (tensor : TensorT) (graph_info : GraphInfo)
    (op_info : OpInfo) (init_min_val : ℚ := 0) (init_max_val : ℚ := 6) :
    QSV :=
  match get_tensor_data tensor graph_info.buffers with
  | none => { min := [init_min_val], max := [init_max_val] }
  | some arr =>
      let quantized_dim : Option Nat :=
        if op_info.op_quant_config.weight_tensor_config.channel_wise then
          if op_info.op_name = TFLOpName.BATCH_MATMUL then
            some (get_bmm_weight_quantized_dim arr.shape.length
              op_info.op.adjY)
          else TFL_OP_TO_WEIGHT_QUANTIZED_DIM op_info.op_name
        else none
      { min := reduceExcept listMin arr.shape arr.data quantized_dim,
        max := reduceExcept listMax arr.shape arr.data quantized_dim }

/-- `min_max_quantize_utils._get_tensor_quant_params`: scale and zero-point
from min/max, the per-channel quantized dimension fixed by the operator
(dictionary `KeyError` for an operator without one), and quantized values
for constant content. -/
def get_tensor_quant_params (op_info : OpInfo) (tensor_min_max : QSV)
    (tensor_quant_config : TensorQuantizationConfig)
    (tensor_content : Option NDArray := none) :
    Except String UniformQuantParams :=
  let zs := tensor_zp_scale_from_min_max tensor_min_max.min
    tensor_min_max.max tensor_quant_config.num_bits
    tensor_quant_config.symmetric
  let qdim : Except String (Option Nat) :=
    if tensor_quant_config.channel_wise then
      if op_info.op_name = TFLOpName.BATCH_MATMUL then
        Except.ok (some (get_bmm_weight_quantized_dim
          ((tensor_content.map (fun a => a.shape.length)).getD 0)
          op_info.op.adjY))
      else
        match TFL_OP_TO_WEIGHT_QUANTIZED_DIM op_info.op_name with
        | none => Except.error "KeyError: TFL_OP_TO_WEIGHT_QUANTIZED_DIM"
        | some d => Except.ok (some d)
    else Except.ok none
  match qdim with
  | Except.error e => Except.error e
  | Except.ok quantized_dim =>
      let quant_params : UniformQuantParams :=
        { scale := zs.2, zero_point := zs.1,
          num_bits := tensor_quant_config.num_bits,
          symmetric := tensor_quant_config.symmetric,
          quantized_dimension := quantized_dim, quantized_data := none }
      match tensor_content with
      | none => Except.ok quant_params
      | some arr =>
          let qdata := uniform_quantize arr.shape arr.data quant_params
          Except.ok { quant_params with quantized_data := some qdata }

/-- `qtyping.OpToTensorParams`. -/
structure OpToTensorParams where
  subgraph_op_id : Nat
  transformations : List QuantTransformation
  parameters : Option UniformQuantParams := none
  deriving DecidableEq, Repr

/-- `qtyping.TensorTransformationParams`. -/
structure TensorTransformationParams where
  tensor_name : String
  producer : Option OpToTensorParams := none
  consumers : List OpToTensorParams := []
  deriving DecidableEq, Repr

/-- `min_max_quantize_utils.get_tensor_transformation_params`: one consumer
edit for an inbound tensor, the producer edit for an outbound one. -/
def get_tensor_transformation_params (tensor_name : String)
    (op_info : OpInfo) (is_inbounding_tensor : Bool)
    (quant_params : Option UniformQuantParams := none)
    (is_constant : Bool := false) : TensorTransformationParams :=
  let transformations := get_tensor_transformations op_info.op_quant_config
    is_inbounding_tensor is_constant
  let op2tensor_params : OpToTensorParams :=
    { subgraph_op_id := op_info.subgraph_op_index,
      transformations := transformations, parameters := quant_params }
  if is_inbounding_tensor then
    { tensor_name := tensor_name, producer := none,
      consumers := [op2tensor_params] }
  else
    { tensor_name := tensor_name, producer := some op2tensor_params,
      consumers := [] }

/-- The tensor-config resolution of
`_get_tensor_transformation_params_wrapper`: the weight config for a
constant tensor of an op with weight-only/DRQ support, the activation
config otherwise. -/
def tensorQuantConfigOfT (tensor : TensorT) (op_info : OpInfo)
    (graph_info : GraphInfo) : Option TensorQuantizationConfig :=
  if (get_tensor_data tensor graph_info.buffers).isSome ∧
      (op_info.op_name ∈ SUPPORTED_WEIGHT_ONLY_OPS ∨
        op_info.op_name ∈ SUPPORTED_DRQ_OPS) then
    some op_info.op_quant_config.weight_tensor_config
  else op_info.op_quant_config.activation_tensor_config

/-- `min_max_quantize_utils._get_tensor_transformation_params_wrapper`:
resolves the tensor config, computes quantization parameters from
calibration statistics — constants missing from the statistics get their
min/max computed on the spot, activations raise `ValueError` — and
assembles the transformation parameters. -/
def get_tensor_transformation_params_wrapper (tensor : TensorT)
    (is_inbounding_tensor : Bool) (op_info : OpInfo)
    (graph_info : GraphInfo) (tensor_name_to_qsv : List (String × QSV))
    (quant_params : Option UniformQuantParams := none) :
    Except String TensorTransformationParams :=
  let tensor_name := tensor.name
  let tensor_data := get_tensor_data tensor graph_info.buffers
  let is_constant := tensor_data.isSome
  let tensor_quant_config : Option TensorQuantizationConfig :=
    tensorQuantConfigOfT tensor op_info graph_info
  match quant_params, tensor_quant_config with
  | none, some tqc =>
      let mm : Except String QSV :=
        match odFind tensor_name_to_qsv tensor_name with
        | none =>
            if is_constant then
              Except.ok (init_tensor_min_max tensor graph_info op_info)
            else
              Except.error ("Tensor " ++ tensor_name ++
                " not found in tensor_name_to_qsv.")
        | some v => Except.ok v
      match mm with
      | Except.error e => Except.error e
      | Except.ok tensor_min_max =>
          match get_tensor_quant_params op_info tensor_min_max tqc
            tensor_data with
          | Except.error e => Except.error e
          | Except.ok qp =>
              Except.ok (get_tensor_transformation_params tensor_name
                op_info is_inbounding_tensor (some qp) is_constant)
  | qp, _ =>
      Except.ok (get_tensor_transformation_params tensor_name op_info
        is_inbounding_tensor qp is_constant)

/-- `min_max_quantize_utils.OpQuantConstraint`. -/
inductive OpQuantConstraint where
  | NO_CONSTRAIN
  | SAME_AS_INPUT_SCALE
  | SAME_AS_OUTPUT_SCALE
  deriving DecidableEq, Repr

/-- `min_max_quantize_utils._materialize_op_tensors`: runs the wrapper on
every tensor, appending the results to `op_tensor_params`. -/
def materialize_op_tensors (op_tensor_params : List TensorTransformationParams)
    (op_tensors : List TensorT) (is_inbounding_tensor : Bool)
    (op_info : OpInfo) (graph_info : GraphInfo)
    (tensor_name_to_qsv : List (String × QSV))
    (quant_params : Option UniformQuantParams := none) :
    Except String (List TensorTransformationParams) :=
  op_tensors.foldlM
    (fun acc tensor =>
      (get_tensor_transformation_params_wrapper tensor is_inbounding_tensor
        op_info graph_info tensor_name_to_qsv quant_params).map
        (fun p => acc ++ [p]))
    op_tensor_params

/-- `min_max_quantize_utils._get_single_tensor_params`: raises `ValueError`
unless the tensor list has exactly one element. -/
def get_single_tensor_params (tensors : List TensorT)
    (is_inbounding_tensor : Bool) (op_info : OpInfo)
    (graph_info : GraphInfo) (tensor_name_to_qsv : List (String × QSV)) :
    Except String TensorTransformationParams :=
  match tensors with
  | [t] => get_tensor_transformation_params_wrapper t is_inbounding_tensor
      op_info graph_info tensor_name_to_qsv none
  | _ => Except.error
      "Trying to get a single tensor params with a list of multiple tensor."

/-- `min_max_quantize_utils._materialize_standard_op_with_same_as_input_scale`:
one input required; its parameters are reused for every output tensor, and
the calibration entry of every output tensor is overwritten with the
input's entry.  Returns the tensor parameters together with the updated
statistics map (the Python code mutates the dictionary in place). -/
def materialize_standard_op_with_same_as_input_scale
    (input_tensors output_tensors : List TensorT) (op_info : OpInfo)
    (graph_info : GraphInfo) (tensor_name_to_qsv : List (String × QSV)) :
    Except String
      (List TensorTransformationParams × List (String × QSV)) :=
  match get_single_tensor_params input_tensors true op_info graph_info
    tensor_name_to_qsv with
  | Except.error e => Except.error e
  | Except.ok input_tensor_params =>
      match input_tensor_params.consumers with
      | [] => Except.error "IndexError: consumers"
      | c0 :: _ =>
          match materialize_op_tensors [input_tensor_params] output_tensors
            false op_info graph_info tensor_name_to_qsv c0.parameters with
          | Except.error e => Except.error e
          | Except.ok op_tensor_params =>
              match odFind tensor_name_to_qsv
                input_tensor_params.tensor_name with
              | none => Except.error "KeyError: tensor_name_to_qsv"
              | some input_tensor_qsv =>
                  Except.ok (op_tensor_params,
                    output_tensors.foldl
                      (fun m t => odSet m t.name input_tensor_qsv)
                      tensor_name_to_qsv)

/-- `min_max_quantize_utils._materialize_standard_op_with_same_as_output_scale`:
one output required; its producer parameters are reused for every input
tensor. -/
def materialize_standard_op_with_same_as_output_scale
    (input_tensors output_tensors : List TensorT) (op_info : OpInfo)
    (graph_info : GraphInfo) (tensor_name_to_qsv : List (String × QSV)) :
    Except String (List TensorTransformationParams) :=
  match get_single_tensor_params output_tensors false op_info graph_info
    tensor_name_to_qsv with
  | Except.error e => Except.error e
  | Except.ok output_tensor_params =>
      let quant_params :=
        match output_tensor_params.producer with
        | none => none
        | some p => p.parameters
      match materialize_op_tensors [] input_tensors true op_info graph_info
        tensor_name_to_qsv quant_params with
      | Except.error e => Except.error e
      | Except.ok ps => Except.ok (ps ++ [output_tensor_params])

/-- `min_max_quantize_utils._materialize_standard_op_no_constraint`. -/
def materialize_standard_op_no_constraint
    (input_tensors output_tensors : List TensorT) (op_info : OpInfo)
    (graph_info : GraphInfo) (tensor_name_to_qsv : List (String × QSV)) :
    Except String (List TensorTransformationParams) :=
  match materialize_op_tensors [] input_tensors true op_info graph_info
    tensor_name_to_qsv none with
  | Except.error e => Except.error e
  | Except.ok ps =>
      materialize_op_tensors ps output_tensors false op_info graph_info
        tensor_name_to_qsv none

/-- The input/output partition of `materialize_standard_op`: tensors at
non-ignored positions with a non-negative index.  (Python raises
`IndexError` for an out-of-range tensor index; the claims never exercise
that path, so a default tensor stands in.) -/
def presentTensors (indices : List Int) (to_ignore : List Nat)
    (subgraph_tensors : List TensorT) : List TensorT :=
  (indices.enum.filter
    (fun p => decide (p.1 ∉ to_ignore) && decide (p.2 ≥ 0))).map
    (fun p => subgraph_tensors.getD p.2.toNat defaultTensorT)

/-- `min_max_quantize_utils.materialize_standard_op`: filters
present, non-ignored inputs and outputs and dispatches on the
constraint.  The calibration map is returned alongside the parameters
(only the SAME_AS_INPUT_SCALE branch changes it). -/
def materialize_standard_op (op_info : OpInfo) (graph_info : GraphInfo)
    (tensor_name_to_qsv : List (String × QSV))
    (constraint : OpQuantConstraint := OpQuantConstraint.NO_CONSTRAIN)
    (inputs_to_ignore : List Nat := []) (outputs_to_ignore : List Nat := []) :
    Except String
      (List TensorTransformationParams × List (String × QSV)) :=
  let input_tensors := presentTensors op_info.op.inputs inputs_to_ignore
    graph_info.subgraph_tensors
  let output_tensors := presentTensors op_info.op.outputs outputs_to_ignore
    graph_info.subgraph_tensors
  match constraint with
  | OpQuantConstraint.SAME_AS_INPUT_SCALE =>
      materialize_standard_op_with_same_as_input_scale input_tensors
        output_tensors op_info graph_info tensor_name_to_qsv
  | OpQuantConstraint.SAME_AS_OUTPUT_SCALE =>
      (materialize_standard_op_with_same_as_output_scale input_tensors
        output_tensors op_info graph_info tensor_name_to_qsv).map
        (fun ps => (ps, tensor_name_to_qsv))
  | OpQuantConstraint.NO_CONSTRAIN =>
      (materialize_standard_op_no_constraint input_tensors output_tensors
        op_info graph_info tensor_name_to_qsv).map
        (fun ps => (ps, tensor_name_to_qsv))

/-- The bias slot of `tfl_flatbuffer_utils.parse_fc_bmm_conv_tensors`
(input slot 2, absent when the slot is missing or -1). -/
def parse_fc_bmm_conv_bias (op : OperatorT)
    (subgraph_tensors : List TensorT) : Option TensorT :=
  if 2 < op.inputs.length ∧ op.inputs.getD 2 (-1) ≠ -1 then
    some (subgraph_tensors.getD (op.inputs.getD 2 (-1)).toNat defaultTensorT)
  else none

/-- `naive_min_max_quantize.materialize_fc_conv`: materializes the op with
the bias slot ignored, then appends the fused bias tensor's parameters —
under SRQ the bias is quantized via the symmetric bias routine from the
already-materialized input and weight parameters and treated as constant;
under every other mode the bias gets no parameters and is treated as
non-constant. -/
def materialize_fc_conv (op_info : OpInfo) (graph_info : GraphInfo)
    (tensor_name_to_qsv : List (String × QSV)) :
    Except String
      (List TensorTransformationParams × List (String × QSV)) :=
  match materialize_standard_op op_info graph_info tensor_name_to_qsv
    OpQuantConstraint.NO_CONSTRAIN [2] [] with
  | Except.error e => Except.error e
  | Except.ok (op_tensor_params, qsv) =>
      match parse_fc_bmm_conv_bias op_info.op
        graph_info.subgraph_tensors with
      | none => Except.ok (op_tensor_params, qsv)
      | some bias_tensor =>
          if op_info.op_quant_config.execution_mode =
              OpExecutionMode.SRQ then
            match op_tensor_params[0]?, op_tensor_params[1]? with
            | some p0, some p1 =>
                match p0.consumers[0]?, p1.consumers[0]? with
                | some c0, some c1 =>
                    match get_tensor_data bias_tensor graph_info.buffers,
                      c0.parameters, c1.parameters with
                    | some bias_content, some ip, some wp =>
                        let bias_quant_params :=
                          symmetric_quantize_bias_tensor bias_content.data
                            ip wp
                        let bias_params := get_tensor_transformation_params
                          bias_tensor.name op_info true
                          (some bias_quant_params) true
                        Except.ok (op_tensor_params ++ [bias_params], qsv)
                    | _, _, _ =>
                        Except.error
                          "TypeError: bias quantization with missing data"
                | _, _ => Except.error "IndexError: consumers"
            | _, _ => Except.error "IndexError: op_tensor_params"
          else
            let bias_params := get_tensor_transformation_params
              bias_tensor.name op_info true none false
            Except.ok (op_tensor_params ++ [bias_params], qsv)

/-- An inbound tensor's transformation-parameter entry: no producer, one
consumer edit. -/
def mkInboundEntry (name : String) (idx : Nat)
    (ts : List QuantTransformation) (qp : Option UniformQuantParams) :
    TensorTransformationParams :=
  let c : OpToTensorParams :=
    { subgraph_op_id := idx, transformations := ts, parameters := qp }
  { tensor_name := name, producer := none, consumers := [c] }

/-- C5: for every fully-connected / conv / batch-matmul style operator
with a present fused bias tensor: under STATIC_RANGE the bias receives
[QUANTIZE_TENSOR] with parameters computed by the symmetric
bias-quantization routine from the already-materialized input (slot 0)
and weight (slot 1) parameters; under DYNAMIC_RANGE and WEIGHT_ONLY the
bias receives [NO_QUANTIZE] with null quantization parameters. -/
theorem materialize_fc_conv_bias_spec (op_info : OpInfo)
    (graph_info : GraphInfo) (tensor_name_to_qsv : List (String × QSV))
    (ps' : List TensorTransformationParams) (qsv' : List (String × QSV))
    (bias_tensor : TensorT)
    (hbias : parse_fc_bmm_conv_bias op_info.op graph_info.subgraph_tensors =
      some bias_tensor)
    (hmat : materialize_fc_conv op_info graph_info tensor_name_to_qsv =
      Except.ok (ps', qsv')) :
    (op_info.op_quant_config.execution_mode = OpExecutionMode.SRQ →
      ∃ (ps : List TensorTransformationParams) (bc : NDArray)
        (ip wp : UniformQuantParams)
        (p0 p1 : TensorTransformationParams) (c0 c1 : OpToTensorParams),
        materialize_standard_op op_info graph_info tensor_name_to_qsv
          OpQuantConstraint.NO_CONSTRAIN [2] [] =
          Except.ok (ps, qsv') ∧
        get_tensor_data bias_tensor graph_info.buffers = some bc ∧
        ps[0]? = some p0 ∧ p0.consumers[0]? = some c0 ∧
          c0.parameters = some ip ∧
        ps[1]? = some p1 ∧ p1.consumers[0]? = some c1 ∧
          c1.parameters = some wp ∧
        ps' = ps ++
          [mkInboundEntry bias_tensor.name op_info.subgraph_op_index
            [QuantTransformation.QUANTIZE_TENSOR]
            (some (symmetric_quantize_bias_tensor bc.data ip wp))]) ∧
    (op_info.op_quant_config.execution_mode = OpExecutionMode.DRQ ∨
      op_info.op_quant_config.execution_mode =
        OpExecutionMode.WEIGHT_ONLY →
      ∃ ps : List TensorTransformationParams,
        materialize_standard_op op_info graph_info tensor_name_to_qsv
          OpQuantConstraint.NO_CONSTRAIN [2] [] =
          Except.ok (ps, qsv') ∧
        ps' = ps ++
          [mkInboundEntry bias_tensor.name op_info.subgraph_op_index
            [QuantTransformation.NO_QUANTIZE] none]) := by
  unfold materialize_fc_conv at hmat
  cases hstd : materialize_standard_op op_info graph_info tensor_name_to_qsv
    OpQuantConstraint.NO_CONSTRAIN [2] [] with
  | error e => rw [hstd] at hmat; exact absurd hmat (by simp)
  | ok pq =>
      obtain ⟨ps, qsv0⟩ := pq
      rw [hstd, hbias] at hmat
      dsimp only at hmat
      constructor
      · intro hsrq
        rw [if_pos hsrq] at hmat
        cases h0 : ps[0]? with
        | none =>
            rw [h0] at hmat
            cases h1 : ps[1]? <;> rw [h1] at hmat <;>
              dsimp only at hmat <;> exact absurd hmat (by simp)
        | some p0 =>
            rw [h0] at hmat
            cases h1 : ps[1]? with
            | none =>
                rw [h1] at hmat
                dsimp only at hmat
                exact absurd hmat (by simp)
            | some p1 =>
                rw [h1] at hmat
                dsimp only at hmat
                cases hc0 : p0.consumers[0]? with
                | none =>
                    rw [hc0] at hmat
                    cases hc1 : p1.consumers[0]? <;> rw [hc1] at hmat <;>
                      dsimp only at hmat <;> exact absurd hmat (by simp)
                | some c0 =>
                    rw [hc0] at hmat
                    cases hc1 : p1.consumers[0]? with
                    | none =>
                        rw [hc1] at hmat
                        dsimp only at hmat
                        exact absurd hmat (by simp)
                    | some c1 =>
                        rw [hc1] at hmat
                        dsimp only at hmat
                        cases hbc : get_tensor_data bias_tensor
                          graph_info.buffers with
                        | none =>
                            rw [hbc] at hmat
                            cases hip : c0.parameters <;>
                              rw [hip] at hmat <;>
                              cases hwp : c1.parameters <;>
                              rw [hwp] at hmat <;>
                              dsimp only at hmat <;>
                              exact absurd hmat (by simp)
                        | some bc =>
                            rw [hbc] at hmat
                            cases hip : c0.parameters with
                            | none =>
                                rw [hip] at hmat
                                cases hwp : c1.parameters <;>
                                  rw [hwp] at hmat <;>
                                  dsimp only at hmat <;>
                                  exact absurd hmat (by simp)
                            | some ip =>
                                rw [hip] at hmat
                                cases hwp : c1.parameters with
                                | none =>
                                    rw [hwp] at hmat
                                    dsimp only at hmat
                                    exact absurd hmat (by simp)
                                | some wp =>
                                    rw [hwp] at hmat
                                    dsimp only at hmat
                                    injection hmat with hmat2
                                    injection hmat2 with hps hqsv
                                    refine ⟨ps, bc, ip, wp, p0, p1, c0, c1,
                                      by rw [hqsv], rfl, h0, hc0, hip,
                                      h1, hc1, hwp, ?_⟩
                                    rw [← hps]
                                    unfold get_tensor_transformation_params
                                    rw [if_pos rfl]
                                    have ht : get_tensor_transformations
                                        op_info.op_quant_config true true =
                                        [QuantTransformation.QUANTIZE_TENSOR] := by
                                      unfold get_tensor_transformations
                                      rw [if_pos hsrq]
                                      simp
                                    rw [ht]
                                    rfl
      · intro hmode
        have hnsrq : ¬ (op_info.op_quant_config.execution_mode =
            OpExecutionMode.SRQ) := by
          rcases hmode with h | h <;> rw [h] <;> simp
        rw [if_neg hnsrq] at hmat
        injection hmat with hmat2
        injection hmat2 with hps hqsv
        refine ⟨ps, by rw [hqsv], ?_⟩
        rw [← hps]
        unfold get_tensor_transformation_params
        rw [if_pos rfl]
        have ht : get_tensor_transformations op_info.op_quant_config true
            false = [QuantTransformation.NO_QUANTIZE] := by
          unfold get_tensor_transformations
          rcases hmode with h | h <;> rw [h] <;> simp
        rw [ht]
        rfl

/-- Concrete tensors, op and graph for the C5 witness: a fully-connected
op under SRQ with a float input, a constant weight, a fused bias and one
output. -/
def tensorInW5 : TensorT :=
  { name := "in", shape := [1, 2], type := TensorType.FLOAT32, buffer := 0 }

def tensorWW5 : TensorT :=
  { name := "w", shape := [1, 2], type := TensorType.FLOAT32, buffer := 1 }

def tensorBW5 : TensorT :=
  { name := "b", shape := [1], type := TensorType.FLOAT32, buffer := 2 }

def tensorOutW5 : TensorT :=
  { name := "out", shape := [1, 1], type := TensorType.FLOAT32,
    buffer := 0 }

def opW5 : OpInfo :=
  { op_name := TFLOpName.FULLY_CONNECTED, subgraph_op_index := 0,
    op := { inputs := [0, 1, 2], outputs := [3] },
    op_quant_config :=
      { activation_tensor_config := some
          { num_bits := 8, symmetric := false, channel_wise := false,
            dtype := TensorDataType.INT },
        weight_tensor_config :=
          { num_bits := 8, symmetric := true, channel_wise := false,
            dtype := TensorDataType.INT },
        execution_mode := OpExecutionMode.SRQ } }

def graphW5 : GraphInfo :=
  { subgraph_tensors := [tensorInW5, tensorWW5, tensorBW5, tensorOutW5],
    buffers := [{ data := none }, { data := some [1, 2] },
      { data := some [3] }] }

def qsvW5 : List (String × QSV) :=
  [("in", { min := [-1], max := [1] }),
   ("out", { min := [-1], max := [1] })]

/-- C5 witness: the fused-bias theorem applied to the concrete SRQ
fully-connected op; the bias entry carries QUANTIZE_TENSOR and the
symmetric bias parameters. -/
theorem materialize_fc_conv_bias_spec_witness :
    ∃ (ps' ps : List TensorTransformationParams)
      (qsv' : List (String × QSV)) (bc : NDArray)
      (ip wp : UniformQuantParams),
      materialize_fc_conv opW5 graphW5 qsvW5 = Except.ok (ps', qsv') ∧
      ps' = ps ++ [mkInboundEntry "b" 0
        [QuantTransformation.QUANTIZE_TENSOR]
        (some (symmetric_quantize_bias_tensor bc.data ip wp))] := by
  obtain ⟨ps', qsv', hmat⟩ :
      ∃ a b, materialize_fc_conv opW5 graphW5 qsvW5 = Except.ok (a, b) :=
    ⟨_, _, rfl⟩
  obtain ⟨hsrq, _⟩ := materialize_fc_conv_bias_spec opW5 graphW5 qsvW5 ps'
    qsv' tensorBW5 rfl hmat
  obtain ⟨ps, bc, ip, wp, p0, p1, c0, c1, _, hbc, _, _, _, _, _, _, hps⟩ :=
    hsrq rfl
  exact ⟨ps', ps, qsv', bc, ip, wp, hmat, hps⟩

/-- The per-channel weight quantized dimension used by
`init_tensor_min_max`: the batch-matmul axis or the per-operator table
entry when the weight config is per-channel, none otherwise. -/
def weightQdim (op_info : OpInfo) (arr : NDArray) : Option Nat :=
  if op_info.op_quant_config.weight_tensor_config.channel_wise then
    if op_info.op_name = TFLOpName.BATCH_MATMUL then
      some (get_bmm_weight_quantized_dim arr.shape.length op_info.op.adjY)
    else TFL_OP_TO_WEIGHT_QUANTIZED_DIM op_info.op_name
  else none

theorem get_tensor_quant_params_isOk (op_info : OpInfo) (mm : QSV)
    (tqc : TensorQuantizationConfig) (content : Option NDArray)
    (h : tqc.channel_wise = true →
      op_info.op_name = TFLOpName.BATCH_MATMUL ∨
        (TFL_OP_TO_WEIGHT_QUANTIZED_DIM op_info.op_name).isSome = true) :
    ∃ qp, get_tensor_quant_params op_info mm tqc content = Except.ok qp := by
  unfold get_tensor_quant_params
  by_cases hcw : tqc.channel_wise = true
  · by_cases hbmm : op_info.op_name = TFLOpName.BATCH_MATMUL
    · rw [if_pos hcw, if_pos hbmm]
      cases content <;> exact ⟨_, rfl⟩
    · rcases h hcw with h1 | h1
      · exact absurd h1 hbmm
      · cases htbl : TFL_OP_TO_WEIGHT_QUANTIZED_DIM op_info.op_name with
        | none => rw [htbl] at h1; simp at h1
        | some d =>
            rw [if_pos hcw, if_neg hbmm]
            cases content <;> exact ⟨_, rfl⟩
  · rw [if_neg hcw]
    cases content <;> exact ⟨_, rfl⟩

/-- C8: when materializing a tensor whose resolved tensor config is
non-null and whose name is absent from the calibration-statistics map: an
activation tensor (no embedded data) raises an error naming the tensor; a
constant tensor raises no error — its min/max are computed on the spot
from the embedded data, reduced over every axis except the weight
quantized dimension when per-channel quantization is configured. -/
theorem wrapper_missing_stats_spec :
    (∀ (tensor : TensorT) (inb : Bool) (op_info : OpInfo)
        (graph_info : GraphInfo) (qsv : List (String × QSV))
        (tqc : TensorQuantizationConfig),
      get_tensor_data tensor graph_info.buffers = none →
      op_info.op_quant_config.activation_tensor_config = some tqc →
      odFind qsv tensor.name = none →
      get_tensor_transformation_params_wrapper tensor inb op_info
        graph_info qsv none =
        Except.error ("Tensor " ++ tensor.name ++
          " not found in tensor_name_to_qsv.")) ∧
    (∀ (tensor : TensorT) (inb : Bool) (op_info : OpInfo)
        (graph_info : GraphInfo) (qsv : List (String × QSV))
        (arr : NDArray) (tqc : TensorQuantizationConfig),
      get_tensor_data tensor graph_info.buffers = some arr →
      (if op_info.op_name ∈ SUPPORTED_WEIGHT_ONLY_OPS ∨
          op_info.op_name ∈ SUPPORTED_DRQ_OPS then
        some op_info.op_quant_config.weight_tensor_config
       else op_info.op_quant_config.activation_tensor_config) = some tqc →
      odFind qsv tensor.name = none →
      (tqc.channel_wise = true →
        op_info.op_name = TFLOpName.BATCH_MATMUL ∨
          (TFL_OP_TO_WEIGHT_QUANTIZED_DIM op_info.op_name).isSome = true) →
      init_tensor_min_max tensor graph_info op_info =
        { min := reduceExcept listMin arr.shape arr.data
            (weightQdim op_info arr),
          max := reduceExcept listMax arr.shape arr.data
            (weightQdim op_info arr) } ∧
      ∃ qp, get_tensor_quant_params op_info
          (init_tensor_min_max tensor graph_info op_info) tqc (some arr) =
          Except.ok qp ∧
        get_tensor_transformation_params_wrapper tensor inb op_info
          graph_info qsv none =
          Except.ok (get_tensor_transformation_params tensor.name op_info
            inb (some qp) true)) := by
  constructor
  · intro tensor inb op_info graph_info qsv tqc hdata hact hqsv
    unfold get_tensor_transformation_params_wrapper
    rw [hdata]
    dsimp only
    have hcfg0 : tensorQuantConfigOfT tensor op_info graph_info =
        some tqc := by
      unfold tensorQuantConfigOfT
      rw [hdata, if_neg (by simp), hact]
    rw [hcfg0, hqsv]
    rfl
  · intro tensor inb op_info graph_info qsv arr tqc hdata hcfg hqsv hcw
    have hinit : init_tensor_min_max tensor graph_info op_info =
        { min := reduceExcept listMin arr.shape arr.data
            (weightQdim op_info arr),
          max := reduceExcept listMax arr.shape arr.data
            (weightQdim op_info arr) } := by
      unfold init_tensor_min_max weightQdim
      rw [hdata]
    refine ⟨hinit, ?_⟩
    obtain ⟨qp, hqp⟩ := get_tensor_quant_params_isOk op_info
      (init_tensor_min_max tensor graph_info op_info) tqc (some arr) hcw
    refine ⟨qp, hqp, ?_⟩
    unfold get_tensor_transformation_params_wrapper
    rw [hdata]
    dsimp only
    have hcfg0 : tensorQuantConfigOfT tensor op_info graph_info =
        some tqc := by
      unfold tensorQuantConfigOfT
      rw [hdata, ← hcfg]
      by_cases hmem : op_info.op_name ∈ SUPPORTED_WEIGHT_ONLY_OPS ∨
          op_info.op_name ∈ SUPPORTED_DRQ_OPS
      · rw [if_pos ⟨rfl, hmem⟩, if_pos hmem]
      · rw [if_neg (fun hc => hmem hc.2), if_neg hmem]
    rw [hcfg0]
    dsimp only
    rw [hqsv]
    dsimp only
    rw [if_pos (show (some arr).isSome = true from rfl)]
    dsimp only
    rw [hqp]
    rfl

/-- Concrete tensors, op and graph for the C8 witness. -/
def tensorActW8 : TensorT :=
  { name := "act", shape := [2], type := TensorType.FLOAT32, buffer := 0 }

def tensorConstW8 : TensorT :=
  { name := "wgt", shape := [2], type := TensorType.FLOAT32, buffer := 1 }

def graphW8 : GraphInfo :=
  { subgraph_tensors := [tensorActW8, tensorConstW8],
    buffers := [{ data := none }, { data := some [1, 2] }] }

def opW8 : OpInfo :=
  { op_name := TFLOpName.FULLY_CONNECTED, subgraph_op_index := 0,
    op := { inputs := [0, 1], outputs := [] },
    op_quant_config :=
      { activation_tensor_config := some
          { num_bits := 8, symmetric := false, channel_wise := false,
            dtype := TensorDataType.INT },
        weight_tensor_config :=
          { num_bits := 8, symmetric := true, channel_wise := false,
            dtype := TensorDataType.INT },
        execution_mode := OpExecutionMode.SRQ } }

/-- C8 witness: with an empty statistics map, the concrete activation
tensor raises the error naming it and the concrete constant tensor
materializes successfully. -/
theorem wrapper_missing_stats_spec_witness :
    get_tensor_transformation_params_wrapper tensorActW8 true opW8 graphW8
      [] none =
      Except.error "Tensor act not found in tensor_name_to_qsv." ∧
    ∃ qp, get_tensor_transformation_params_wrapper tensorConstW8 true opW8
      graphW8 [] none =
      Except.ok (get_tensor_transformation_params "wgt" opW8 true (some qp)
        true) := by
  constructor
  · exact wrapper_missing_stats_spec.1 tensorActW8 true opW8 graphW8 []
      { num_bits := 8, symmetric := false, channel_wise := false,
        dtype := TensorDataType.INT } rfl rfl rfl
  · obtain ⟨_, qp, _, hw⟩ := wrapper_missing_stats_spec.2 tensorConstW8
      true opW8 graphW8 [] { shape := [2], data := [1, 2] }
      { num_bits := 8, symmetric := true, channel_wise := false,
        dtype := TensorDataType.INT }
      rfl (by decide) rfl (fun h => absurd h (by decide))
    exact ⟨qp, hw⟩

/-! ## Lemmas on the wrapper and the SAME_AS_INPUT_SCALE constraint -/

theorem wrapper_some_params (tensor : TensorT) (inb : Bool)
    (op_info : OpInfo) (graph_info : GraphInfo)
    (qsv : List (String × QSV)) (qp : UniformQuantParams) :
    get_tensor_transformation_params_wrapper tensor inb op_info graph_info
      qsv (some qp) =
      Except.ok (get_tensor_transformation_params tensor.name op_info inb
        (some qp) ((get_tensor_data tensor graph_info.buffers).isSome)) := by
  unfold get_tensor_transformation_params_wrapper
  cases hcfg : tensorQuantConfigOfT tensor op_info graph_info <;> rfl

theorem wrapper_cfg_none (tensor : TensorT) (inb : Bool) (op_info : OpInfo)
    (graph_info : GraphInfo) (qsv : List (String × QSV))
    (hcfg : tensorQuantConfigOfT tensor op_info graph_info = none) :
    get_tensor_transformation_params_wrapper tensor inb op_info graph_info
      qsv none =
      Except.ok (get_tensor_transformation_params tensor.name op_info inb
        none ((get_tensor_data tensor graph_info.buffers).isSome)) := by
  unfold get_tensor_transformation_params_wrapper
  rw [hcfg]

theorem wrapper_none_ok_shape (tensor : TensorT) (inb : Bool)
    (op_info : OpInfo) (graph_info : GraphInfo)
    (qsv : List (String × QSV)) (r : TensorTransformationParams)
    (h : get_tensor_transformation_params_wrapper tensor inb op_info
      graph_info qsv none = Except.ok r) :
    (tensorQuantConfigOfT tensor op_info graph_info = none ∧
      r = get_tensor_transformation_params tensor.name op_info inb none
        ((get_tensor_data tensor graph_info.buffers).isSome)) ∨
    (∃ qp, (tensorQuantConfigOfT tensor op_info graph_info).isSome = true ∧
      r = get_tensor_transformation_params tensor.name op_info inb
        (some qp) ((get_tensor_data tensor graph_info.buffers).isSome)) := by
  unfold get_tensor_transformation_params_wrapper at h
  cases hcfg : tensorQuantConfigOfT tensor op_info graph_info with
  | none =>
      rw [hcfg] at h
      dsimp only at h
      injection h with h2
      exact Or.inl ⟨rfl, h2.symm⟩
  | some tqc =>
      rw [hcfg] at h
      dsimp only at h
      cases hfind : odFind qsv tensor.name with
      | none =>
          rw [hfind] at h
          by_cases hconst :
            (get_tensor_data tensor graph_info.buffers).isSome = true
          · rw [if_pos hconst] at h
            dsimp only at h
            cases hq : get_tensor_quant_params op_info
              (init_tensor_min_max tensor graph_info op_info) tqc
              (get_tensor_data tensor graph_info.buffers) with
            | error e => rw [hq] at h; exact absurd h (by simp)
            | ok qp =>
                rw [hq] at h
                dsimp only at h
                injection h with h2
                exact Or.inr ⟨qp, by simp, h2.symm⟩
          · rw [if_neg hconst] at h
            exact absurd h (by simp)
      | some mm =>
          rw [hfind] at h
          dsimp only at h
          cases hq : get_tensor_quant_params op_info mm tqc
            (get_tensor_data tensor graph_info.buffers) with
          | error e => rw [hq] at h; exact absurd h (by simp)
          | ok qp =>
              rw [hq] at h
              dsimp only at h
              injection h with h2
              exact Or.inr ⟨qp, by simp, h2.symm⟩

theorem materialize_op_tensors_some (ts : List TensorT)
    (inb : Bool) (op_info : OpInfo) (graph_info : GraphInfo)
    (qsv : List (String × QSV)) (qp : UniformQuantParams) :
    ∀ acc, materialize_op_tensors acc ts inb op_info graph_info qsv
      (some qp) =
      Except.ok (acc ++ ts.map (fun t =>
        get_tensor_transformation_params t.name op_info inb (some qp)
          ((get_tensor_data t graph_info.buffers).isSome))) := by
  induction ts with
  | nil =>
      intro acc
      simp only [materialize_op_tensors, List.foldlM_nil, List.map_nil,
        List.append_nil]
      rfl
  | cons t rest ih =>
      intro acc
      have hstep : materialize_op_tensors acc (t :: rest) inb op_info
          graph_info qsv (some qp) =
          materialize_op_tensors (acc ++
            [get_tensor_transformation_params t.name op_info inb (some qp)
              ((get_tensor_data t graph_info.buffers).isSome)]) rest inb
            op_info graph_info qsv (some qp) := by
        unfold materialize_op_tensors
        rw [List.foldlM_cons, wrapper_some_params]
        rfl
      rw [hstep, ih]
      simp

theorem materialize_op_tensors_cfg_none (ts : List TensorT)
    (inb : Bool) (op_info : OpInfo) (graph_info : GraphInfo)
    (qsv : List (String × QSV))
    (hcfg : ∀ t ∈ ts, tensorQuantConfigOfT t op_info graph_info = none) :
    ∀ acc, materialize_op_tensors acc ts inb op_info graph_info qsv none =
      Except.ok (acc ++ ts.map (fun t =>
        get_tensor_transformation_params t.name op_info inb none
          ((get_tensor_data t graph_info.buffers).isSome))) := by
  induction ts with
  | nil =>
      intro acc
      simp only [materialize_op_tensors, List.foldlM_nil, List.map_nil,
        List.append_nil]
      rfl
  | cons t rest ih =>
      intro acc
      have hstep : materialize_op_tensors acc (t :: rest) inb op_info
          graph_info qsv none =
          materialize_op_tensors (acc ++
            [get_tensor_transformation_params t.name op_info inb none
              ((get_tensor_data t graph_info.buffers).isSome)]) rest inb
            op_info graph_info qsv none := by
        unfold materialize_op_tensors
        rw [List.foldlM_cons,
          wrapper_cfg_none t inb op_info graph_info qsv
            (hcfg t (List.mem_cons_self _ _))]
        rfl
      rw [hstep, ih (fun x hx => hcfg x (List.mem_cons_of_mem _ hx))]
      simp

theorem tensorQuantConfigOfT_not_supported (t : TensorT) (op_info : OpInfo)
    (g : GraphInfo)
    (hmem : ¬ (op_info.op_name ∈ SUPPORTED_WEIGHT_ONLY_OPS ∨
      op_info.op_name ∈ SUPPORTED_DRQ_OPS)) :
    tensorQuantConfigOfT t op_info g =
      op_info.op_quant_config.activation_tensor_config := by
  unfold tensorQuantConfigOfT
  rw [if_neg (fun hc => hmem hc.2)]

theorem odFind_foldl_odSet_mem {β : Type} (v : β) :
    ∀ (ts : List TensorT) (m : List (String × β)) (t : TensorT),
      t ∈ ts →
      odFind (ts.foldl (fun m t => odSet m t.name v) m) t.name = some v := by
  have hkeep : ∀ (rest : List TensorT) (m : List (String × β)) (k : String),
      odFind m k = some v →
      odFind (rest.foldl (fun m t => odSet m t.name v) m) k = some v := by
    intro rest
    induction rest with
    | nil => intro m k h; exact h
    | cons x xs ih =>
        intro m k h
        rw [List.foldl_cons]
        apply ih
        by_cases hx : k = x.name
        · rw [hx, odFind_odSet_self]
        · rw [odFind_odSet_other _ _ _ _ hx]
          exact h
  intro ts
  induction ts with
  | nil => intro m t ht; simp at ht
  | cons x xs ih =>
      intro m t ht
      rw [List.foldl_cons]
      rcases List.mem_cons.mp ht with h | h
      · rw [h]
        exact hkeep xs _ _ (odFind_odSet_self _ _ _)
      · exact ih _ t h

/-- C4: for every operator materialized under the SAME_AS_INPUT_SCALE
constraint: if the number of non-ignored, present input tensors is not
exactly one, an error is raised (ambiguous propagation); otherwise every
output tensor's entry carries exactly the single input tensor's
quantization parameters, and the calibration-statistics entry of every
output tensor is overwritten with the input tensor's entry.  The second
part is stated for operators outside the weight-handling set, which is
every operator materialized with this constraint (reshape, transpose,
average-pool and kin). -/
theorem materialize_same_as_input_scale_spec :
    (∀ (op_info : OpInfo) (graph_info : GraphInfo)
        (qsv : List (String × QSV)) (ign_in ign_out : List Nat),
      (presentTensors op_info.op.inputs ign_in
        graph_info.subgraph_tensors).length ≠ 1 →
      materialize_standard_op op_info graph_info qsv
        OpQuantConstraint.SAME_AS_INPUT_SCALE ign_in ign_out =
        Except.error
          "Trying to get a single tensor params with a list of multiple tensor.") ∧
    (∀ (op_info : OpInfo) (graph_info : GraphInfo)
        (qsv qsv' : List (String × QSV)) (ign_in ign_out : List Nat)
        (ps : List TensorTransformationParams),
      ¬ (op_info.op_name ∈ SUPPORTED_WEIGHT_ONLY_OPS ∨
        op_info.op_name ∈ SUPPORTED_DRQ_OPS) →
      materialize_standard_op op_info graph_info qsv
        OpQuantConstraint.SAME_AS_INPUT_SCALE ign_in ign_out =
        Except.ok (ps, qsv') →
      ∃ (inputEntry : TensorTransformationParams) (c0 : OpToTensorParams)
        (iq : QSV),
        ps.head? = some inputEntry ∧
        inputEntry.consumers = [c0] ∧
        ps.tail.length = (presentTensors op_info.op.outputs ign_out
          graph_info.subgraph_tensors).length ∧
        (∀ e ∈ ps.tail, ∃ pr, e.producer = some pr ∧
          pr.parameters = c0.parameters) ∧
        odFind qsv inputEntry.tensor_name = some iq ∧
        qsv' = (presentTensors op_info.op.outputs ign_out
          graph_info.subgraph_tensors).foldl
          (fun m t => odSet m t.name iq) qsv ∧
        (∀ t ∈ presentTensors op_info.op.outputs ign_out
          graph_info.subgraph_tensors, odFind qsv' t.name = some iq)) := by
  constructor
  · intro op_info graph_info qsv ign_in ign_out hlen
    unfold materialize_standard_op
    dsimp only
    unfold materialize_standard_op_with_same_as_input_scale
      get_single_tensor_params
    cases hins : presentTensors op_info.op.inputs ign_in
      graph_info.subgraph_tensors with
    | nil => rfl
    | cons t rest =>
        cases rest with
        | nil => rw [hins] at hlen; simp at hlen
        | cons t2 rest2 => rfl
  · intro op_info graph_info qsv qsv' ign_in ign_out ps hmem hmat
    unfold materialize_standard_op at hmat
    dsimp only at hmat
    unfold materialize_standard_op_with_same_as_input_scale
      get_single_tensor_params at hmat
    cases hins : presentTensors op_info.op.inputs ign_in
      graph_info.subgraph_tensors with
    | nil =>
        rw [hins] at hmat
        dsimp only at hmat
        exact absurd hmat (by simp)
    | cons t rest =>
        cases rest with
        | cons t2 rest2 =>
            rw [hins] at hmat
            dsimp only at hmat
            exact absurd hmat (by simp)
        | nil =>
            rw [hins] at hmat
            dsimp only at hmat
            cases hw : get_tensor_transformation_params_wrapper t true
              op_info graph_info qsv none with
            | error e => rw [hw] at hmat; exact absurd hmat (by simp)
            | ok itp =>
                rw [hw] at hmat
                dsimp only at hmat
                rcases wrapper_none_ok_shape t true op_info graph_info qsv
                  itp hw with ⟨hcfgnone, hshape⟩ | ⟨qp, _, hshape⟩
                · subst hshape
                  dsimp only [get_tensor_transformation_params] at hmat
                  rw [if_pos rfl] at hmat
                  dsimp only at hmat
                  have hall : ∀ x ∈ presentTensors op_info.op.outputs
                      ign_out graph_info.subgraph_tensors,
                      tensorQuantConfigOfT x op_info graph_info = none := by
                    intro x _
                    rw [tensorQuantConfigOfT_not_supported x op_info
                      graph_info hmem,
                      ← tensorQuantConfigOfT_not_supported t op_info
                        graph_info hmem]
                    exact hcfgnone
                  rw [materialize_op_tensors_cfg_none _ false op_info
                    graph_info qsv hall] at hmat
                  dsimp only at hmat
                  cases hfind : odFind qsv t.name with
                  | none => rw [hfind] at hmat; exact absurd hmat (by simp)
                  | some iq =>
                      rw [hfind] at hmat
                      injection hmat with hmat2
                      injection hmat2 with hps hqsv
                      refine ⟨get_tensor_transformation_params t.name
                          op_info true none
                          ((get_tensor_data t graph_info.buffers).isSome),
                        { subgraph_op_id := op_info.subgraph_op_index,
                          transformations := get_tensor_transformations
                            op_info.op_quant_config true
                            ((get_tensor_data t graph_info.buffers).isSome),
                          parameters := none }, iq,
                        ?_, rfl, ?_, ?_, hfind, hqsv.symm, ?_⟩
                      · rw [← hps]
                        rfl
                      · rw [← hps]
                        simp [get_tensor_transformation_params]
                      · rw [← hps]
                        intro e he
                        simp only [List.singleton_append, List.tail_cons]
                          at he
                        rcases List.mem_map.mp he with ⟨x, _, hx⟩
                        exact ⟨⟨op_info.subgraph_op_index,
                          get_tensor_transformations
                            op_info.op_quant_config false
                            ((get_tensor_data x graph_info.buffers).isSome),
                          none⟩,
                          by rw [← hx]; rfl, rfl⟩
                      · intro x hx
                        rw [hqsv.symm]
                        exact odFind_foldl_odSet_mem iq _ qsv x hx
                · subst hshape
                  dsimp only [get_tensor_transformation_params] at hmat
                  rw [if_pos rfl] at hmat
                  dsimp only at hmat
                  rw [materialize_op_tensors_some _ false op_info
                    graph_info qsv qp] at hmat
                  dsimp only at hmat
                  cases hfind : odFind qsv t.name with
                  | none => rw [hfind] at hmat; exact absurd hmat (by simp)
                  | some iq =>
                      rw [hfind] at hmat
                      injection hmat with hmat2
                      injection hmat2 with hps hqsv
                      refine ⟨get_tensor_transformation_params t.name
                          op_info true (some qp)
                          ((get_tensor_data t graph_info.buffers).isSome),
                        { subgraph_op_id := op_info.subgraph_op_index,
                          transformations := get_tensor_transformations
                            op_info.op_quant_config true
                            ((get_tensor_data t graph_info.buffers).isSome),
                          parameters := some qp }, iq,
                        ?_, rfl, ?_, ?_, hfind, hqsv.symm, ?_⟩
                      · rw [← hps]
                        rfl
                      · rw [← hps]
                        simp [get_tensor_transformation_params]
                      · rw [← hps]
                        intro e he
                        simp only [List.singleton_append, List.tail_cons]
                          at he
                        rcases List.mem_map.mp he with ⟨x, _, hx⟩
                        exact ⟨⟨op_info.subgraph_op_index,
                          get_tensor_transformations
                            op_info.op_quant_config false
                            ((get_tensor_data x graph_info.buffers).isSome),
                          some qp⟩,
                          by rw [← hx]; rfl, rfl⟩
                      · intro x hx
                        rw [hqsv.symm]
                        exact odFind_foldl_odSet_mem iq _ qsv x hx

/-- Concrete reshape-style op and graph for the C4 witness. -/
def tensorInW4 : TensorT :=
  { name := "x", shape := [2], type := TensorType.FLOAT32, buffer := 0 }

def tensorOutW4 : TensorT :=
  { name := "y", shape := [2], type := TensorType.FLOAT32, buffer := 0 }

def opW4 : OpInfo :=
  { op_name := TFLOpName.RESHAPE, subgraph_op_index := 0,
    op := { inputs := [0], outputs := [1] },
    op_quant_config :=
      { activation_tensor_config := some
          { num_bits := 8, symmetric := false, channel_wise := false,
            dtype := TensorDataType.INT },
        weight_tensor_config :=
          { num_bits := 8, symmetric := true, channel_wise := false,
            dtype := TensorDataType.INT },
        execution_mode := OpExecutionMode.SRQ } }

def opW4a : OpInfo :=
  { opW4 with op := { inputs := [0, 1], outputs := [] } }

def graphW4 : GraphInfo :=
  { subgraph_tensors := [tensorInW4, tensorOutW4],
    buffers := [{ data := none }] }

def qsvW4 : List (String × QSV) :=
  [("x", { min := [-1], max := [1] }), ("y", { min := [-2], max := [2] })]

/-- C4 witness: the SAME_AS_INPUT_SCALE theorem applied to a concrete
reshape op — two present inputs raise the ambiguity error, and the
one-input run propagates the input parameters and overwrites the output's
statistics entry. -/
theorem materialize_same_as_input_scale_spec_witness :
    materialize_standard_op opW4a graphW4 qsvW4
      OpQuantConstraint.SAME_AS_INPUT_SCALE [] [] =
      Except.error
        "Trying to get a single tensor params with a list of multiple tensor." ∧
    ∃ (ps : List TensorTransformationParams) (qsv' : List (String × QSV))
      (inputEntry : TensorTransformationParams) (c0 : OpToTensorParams)
      (iq : QSV),
      materialize_standard_op opW4 graphW4 qsvW4
        OpQuantConstraint.SAME_AS_INPUT_SCALE [] [] =
        Except.ok (ps, qsv') ∧
      ps.head? = some inputEntry ∧
      inputEntry.consumers = [c0] ∧
      (∀ e ∈ ps.tail, ∃ pr, e.producer = some pr ∧
        pr.parameters = c0.parameters) ∧
      odFind qsv' "y" = some iq := by
  constructor
  · exact materialize_same_as_input_scale_spec.1 opW4a graphW4 qsvW4 [] []
      (by decide)
  · obtain ⟨ps, qsv', hmat⟩ :
        ∃ a b, materialize_standard_op opW4 graphW4 qsvW4
          OpQuantConstraint.SAME_AS_INPUT_SCALE [] [] =
          Except.ok (a, b) := ⟨_, _, rfl⟩
    obtain ⟨ie, c0, iq, h1, h2, _, h4, _, _, h7⟩ :=
      materialize_same_as_input_scale_spec.2 opW4 graphW4 qsvW4 qsv' [] []
        ps (by decide) hmat
    exact ⟨ps, qsv', ie, c0, iq, hmat, h1, h2, h4,
      h7 tensorOutW4 (by decide)⟩

end AEQ
